import Mathlib

/-!
# gosecrets: the encryption sidecar of ns_server

A shallow embedding of `deps/gocode/src/gosecrets/gosecrets.go` and theorems about its
command handlers.

Modelling conventions
* A Go `[]byte` is a `List Nat` whose elements are byte values; every place where the
  source does arithmetic in `byte` or `uint32` carries an explicit `% 256` or `% 2^32`.
* The three key fields of `encryptionService` are `Option Bytes`: `none` is Go's `nil`
  slice, which the source tests for (`key == nil`, `s.backupDataKey != nil`).  A command
  payload is a plain `Bytes` (a `nil` payload is `[]`): no handler tests a payload for
  `nil`, only its length or content.
* The Go standard library and `golang.org/x/crypto` are not part of the program.
  `pbkdf2.Key`, the AES-GCM `Seal` and `Open` and the bytes delivered by `rand.Reader`
  are fields of `Primitives`; every definition takes them as the parameter `E` and the
  theorems hold for every `E`, under the stated laws where a law is needed.
* `rand.Reader` never fails and `os.Stdout` is always writable, so the two panics that
  guard those calls are not represented.  Every other panic is: a handler returns
  `Res.panic` together with the state at the moment of the panic.
-/

set_option maxRecDepth 100000

namespace Gosecrets

abbrev Bytes := List Nat

/-- The library functions the program calls: `pbkdf2.Key password salt iter keyLen`
(with HMAC-SHA1), the AEAD `Seal key nonce plaintext` and `Open key nonce ciphertext`
of AES-GCM (`none` is an authentication failure), and the byte stream of `rand.Reader`. -/
structure Primitives where
  pbkdf2Key : Bytes → Bytes → Nat → Nat → Bytes
  gcmSeal : Bytes → Bytes → Bytes → Bytes
  gcmOpen : Bytes → Bytes → Bytes → Option Bytes
  randByte : Nat → Nat

def keySize : Nat := 32

def nIterations : Nat := 4096

def salt : Bytes := [20, 183, 239, 38, 44, 214, 22, 141]

def emptyString : Bytes := []

/-- The value of `aesgcm.NonceSize()` for the standard GCM of `cipher.NewGCM`. -/
def nonceSize : Nat := 12

/-- The process state: the three key fields of the Go struct, the unread part of standard
input behind `reader`, the number of bytes drawn so far from `rand.Reader`, and all
bytes written so far to standard output. -/
structure encryptionService where
  lockKey : Option Bytes
  encryptedDataKey : Option Bytes
  backupDataKey : Option Bytes
  reader : Bytes
  randPos : Nat
  stdout : Bytes
deriving DecidableEq, Repr

/-- How a call of a method ends: it returns `a`, it panics, or the process exits; each
with the state at that moment. -/
inductive Res (α : Type) where
  | ok (a : α) (s : encryptionService)
  | panic (msg : String) (s : encryptionService)
  | exit (code : Nat) (s : encryptionService)
deriving DecidableEq, Repr

/-- The result of a pure Go function of type `([]byte, error)` that may also panic. -/
inductive Dec where
  | ret (b : Bytes)
  | err (msg : String)
  | panic (msg : String)
deriving DecidableEq, Repr

/-- The bytes of an ASCII string literal. -/
def str (msg : String) : Bytes := msg.toList.map Char.toNat

/-- The content of a possibly-nil slice. -/
def sl (key : Option Bytes) : Bytes := key.getD []

/-- The big-endian encoding that `binary.Write` gives a `uint32`. -/
def be32 (n : Nat) : Bytes := [n / 2 ^ 24 % 256, n / 2 ^ 16 % 256, n / 2 ^ 8 % 256, n % 256]

/-- One reply frame: `uint32(len(data))` big-endian, then `data`. -/
def frame (data : Bytes) : Bytes := be32 (data.length % 2 ^ 32) ++ data

def doReply (data : Bytes) (s : encryptionService) : encryptionService :=
  { s with stdout := s.stdout ++ frame data }

def replySuccessWithData (data : Bytes) (s : encryptionService) : encryptionService :=
  doReply (83 :: data) s

def replySuccess (s : encryptionService) : encryptionService :=
  doReply [83] s

def replyError (error : String) (s : encryptionService) : encryptionService :=
  doReply (str ("E" ++ error)) s

def encodeKey (key : Option Bytes) : Bytes :=
  match key with
  | none => [0]
  | some k => (k.length % 256) :: k

def combineDataKeys (key1 key2 : Option Bytes) : Bytes :=
  encodeKey key1 ++ encodeKey key2

def replySuccessWithDataKey (s : encryptionService) : encryptionService :=
  replySuccessWithData (combineDataKeys s.encryptedDataKey s.backupDataKey) s

/-- The function `readField`: `size` is a `byte`, so `size+1` is computed modulo 256; `none`
is the run-time panic of an index or a slice bound out of range. -/
def readField (b : Bytes) : Option (Bytes × Bytes) :=
  match b with
  | [] => none
  | size :: _ =>
    let hi := (size + 1) % 256
    if 1 ≤ hi ∧ hi ≤ b.length then some ((b.take hi).drop 1, b.drop hi) else none

/-- The text of the run-time panic with which `readField` fails on `b`, a slice whose
capacity is its length: the index `b[0]` of an empty slice, the upper bound of
`b[1 : size+1]` beyond the capacity, or that bound wrapped to 0, below the lower bound 1. -/
def readFieldPanic (b : Bytes) : String :=
  match b with
  | [] => "runtime error: index out of range [0] with length 0"
  | size :: _ =>
    let hi := (size + 1) % 256
    if b.length < hi then
      "runtime error: slice bounds out of range [:" ++ toString hi ++ "] with capacity " ++
        toString b.length
    else "runtime error: slice bounds out of range [1:" ++ toString hi ++ "]"

def generateLockKey (E : Primitives) (password : Bytes) : Bytes :=
  E.pbkdf2Key password salt nIterations keySize

/-- The error of `aes.NewCipher`, if any: the key must have 16, 24 or 32 bytes. -/
def aesNewCipher (key : Bytes) : Option String :=
  if key.length = 16 ∨ key.length = 24 ∨ key.length = 32 then none
  else some ("crypto/aes: invalid key size " ++ toString key.length)

/-- The `n` bytes that `rand.Reader` delivers after the first `pos`. -/
def randBytes (E : Primitives) (pos n : Nat) : Bytes :=
  (List.range n).map (fun i => E.randByte (pos + i) % 256)

/-- The call `io.ReadFull(rand.Reader, buf)` for a buffer of `n` bytes. -/
def readRand (E : Primitives) (n : Nat) (s : encryptionService) : Bytes × encryptionService :=
  (randBytes E s.randPos n, { s with randPos := s.randPos + n })

def aesgcmEncrypt (E : Primitives) (key data : Bytes) (s : encryptionService) : Res Bytes :=
  match aesNewCipher key with
  | some msg => .panic msg s
  | none =>
    let (nonce, s1) := readRand E nonceSize s
    .ok (nonce ++ E.gcmSeal key nonce data) s1

def encrypt (E : Primitives) (key data : Bytes) (s : encryptionService) : Res Bytes :=
  match aesgcmEncrypt E key data s with
  | .ok encrypted s1 => .ok (0 :: encrypted) s1
  | .panic msg s1 => .panic msg s1
  | .exit code s1 => .exit code s1

def aesgcmDecrypt (E : Primitives) (key data : Bytes) : Dec :=
  match aesNewCipher key with
  | some msg => .panic msg
  | none =>
    if data.length < nonceSize then .err "ciphertext is too short"
    else
      match E.gcmOpen key (data.take nonceSize) (data.drop nonceSize) with
      | some plaintext => .ret plaintext
      | none => .err "cipher: message authentication failed"

def decrypt (E : Primitives) (key data : Bytes) : Dec :=
  match data with
  | [] => .err "ciphertext is too short"
  | version :: rest =>
    if version ≠ 0 then .err "unsupported cipher"
    else aesgcmDecrypt E key rest

def cmdGetState (E : Primitives) (s : encryptionService) : Res Unit :=
  if sl s.lockKey = generateLockKey E emptyString then
    .ok () (replySuccessWithData (str "default") s)
  else
    .ok () (replySuccessWithData (str "user_configured") s)

def cmdSetPassword (E : Primitives) (data : Bytes) (s : encryptionService) : Res Unit :=
  .ok () (replySuccess { s with lockKey := some (generateLockKey E data) })

def createDataKey (E : Primitives) (s : encryptionService) : Res Bytes :=
  let (dataKey, s1) := readRand E keySize s
  encrypt E (sl s1.lockKey) dataKey s1

def cmdCreateDataKey (E : Primitives) (s : encryptionService) : Res Unit :=
  match s.lockKey with
  | none => .panic "Password was not set" s
  | some _ =>
    match createDataKey E s with
    | .ok key s1 => .ok () (replySuccessWithData (combineDataKeys (some key) none) s1)
    | .panic msg s1 => .panic msg s1
    | .exit code s1 => .exit code s1

def cmdSetDataKey (E : Primitives) (data : Bytes) (s : encryptionService) : Res Unit :=
  match s.lockKey with
  | none => .panic "Password was not set" s
  | some lockKey =>
    match readField data with
    | none => .panic (readFieldPanic data) s
    | some (encryptedDataKey, data1) =>
      match readField data1 with
      | none => .panic (readFieldPanic data1) s
      | some (backupDataKey, _) =>
        match decrypt E lockKey encryptedDataKey with
        | .panic msg => .panic msg s
        | .err msg => .ok () (replyError msg s)
        | .ret _ =>
          if backupDataKey.length = 0 then
            .ok () (replySuccess
              { s with backupDataKey := none, encryptedDataKey := some encryptedDataKey })
          else
            match decrypt E lockKey backupDataKey with
            | .panic msg => .panic msg s
            | .err msg => .ok () (replyError msg s)
            | .ret _ =>
              .ok () (replySuccess
                { s with backupDataKey := some backupDataKey,
                         encryptedDataKey := some encryptedDataKey })

def cmdGetDataKey (s : encryptionService) : Res Unit :=
  .ok () (replySuccessWithDataKey s)

def cmdEncrypt (E : Primitives) (data : Bytes) (s : encryptionService) : Res Unit :=
  match s.lockKey with
  | none => .panic "Password was not set" s
  | some lockKey =>
    match decrypt E lockKey (sl s.encryptedDataKey) with
    | .panic msg => .panic msg s
    | .err msg => .ok () (replyError msg s)
    | .ret dataKey =>
      match encrypt E dataKey data s with
      | .ok ciphertext s1 => .ok () (replySuccessWithData ciphertext s1)
      | .panic msg s1 => .panic msg s1
      | .exit code s1 => .exit code s1

def decryptWithKey (E : Primitives) (s : encryptionService) (key : Option Bytes)
    (data : Bytes) : Dec :=
  match key with
  | none => .err "Unable to decrypt value"
  | some k =>
    match decrypt E (sl s.lockKey) k with
    | .panic msg => .panic msg
    | .err msg => .err msg
    | .ret dataKey => decrypt E dataKey data

def cmdDecrypt (E : Primitives) (data : Bytes) (s : encryptionService) : Res Unit :=
  match s.lockKey with
  | none => .panic "Password was not set" s
  | some _ =>
    match decryptWithKey E s s.encryptedDataKey data with
    | .panic msg => .panic msg s
    | .ret plaintext => .ok () (replySuccessWithData plaintext s)
    | .err _ =>
      match decryptWithKey E s s.backupDataKey data with
      | .panic msg => .panic msg s
      | .err msg => .ok () (replyError msg s)
      | .ret plaintext => .ok () (replySuccessWithData plaintext s)

def cmdChangePassword (E : Primitives) (data : Bytes) (s : encryptionService) : Res Unit :=
  match s.lockKey with
  | none => .panic "Password was not set" s
  | some lockKey =>
    let backup : Dec :=
      match s.backupDataKey with
      | some b => decrypt E lockKey b
      | none => .ret []
    match backup with
    | .panic msg => .panic msg s
    | .err msg => .ok () (replyError msg s)
    | .ret backupDataKey =>
      match decrypt E lockKey (sl s.encryptedDataKey) with
      | .panic msg => .panic msg s
      | .err msg => .ok () (replyError msg s)
      | .ret dataKey =>
        let s1 := { s with lockKey := some (generateLockKey E data) }
        match encrypt E (sl s1.lockKey) dataKey s1 with
        | .panic msg s2 => .panic msg s2
        | .exit code s2 => .exit code s2
        | .ok edk s2 =>
          let s3 := { s2 with encryptedDataKey := some edk }
          match s3.backupDataKey with
          | none => .ok () (replySuccessWithDataKey s3)
          | some _ =>
            match encrypt E (sl s3.lockKey) backupDataKey s3 with
            | .panic msg s4 => .panic msg s4
            | .exit code s4 => .exit code s4
            | .ok bdk s4 => .ok () (replySuccessWithDataKey { s4 with backupDataKey := some bdk })

def cmdRotateDataKey (E : Primitives) (s : encryptionService) : Res Unit :=
  match s.lockKey with
  | none => .panic "Password was not set" s
  | some _ =>
    match s.backupDataKey with
    | some _ => .ok () (replyError "Data key rotation is in progress" s)
    | none =>
      let s1 := { s with backupDataKey := s.encryptedDataKey }
      match createDataKey E s1 with
      | .panic msg s2 => .panic msg s2
      | .exit code s2 => .exit code s2
      | .ok key s2 => .ok () (replySuccessWithDataKey { s2 with encryptedDataKey := some key })

def cmdClearBackupKey (keys : Bytes) (s : encryptionService) : Res Unit :=
  if combineDataKeys s.encryptedDataKey s.backupDataKey ≠ keys then
    .ok () (replyError "Key mismatch" s)
  else
    match s.backupDataKey with
    | none => .ok () (replySuccess s)
    | some _ => .ok () (replySuccessWithDataKey { s with backupDataKey := none })

/-- The `switch` of `processCommand`, on a command byte and its payload. -/
def dispatch (E : Primitives) (command : Nat) (data : Bytes) (s : encryptionService) :
    Res Unit :=
  match command with
  | 1 => cmdSetPassword E data s
  | 2 => cmdCreateDataKey E s
  | 3 => cmdSetDataKey E data s
  | 4 => cmdGetDataKey s
  | 5 => cmdEncrypt E data s
  | 6 => cmdDecrypt E data s
  | 7 => cmdChangePassword E data s
  | 8 => cmdRotateDataKey E s
  | 9 => cmdClearBackupKey data s
  | 10 => cmdGetState E s
  | _ => .panic ("Unknown command " ++ toString command) s

/-- The state in which `main` enters its loop, with `input` waiting on standard input. -/
def startup (E : Primitives) (input : Bytes) : encryptionService :=
  { lockKey := some (generateLockKey E emptyString)
    encryptedDataKey := none
    backupDataKey := none
    reader := input
    randPos := 0
    stdout := [] }

/-- Handling a list of commands in order, stopping at the first that does not return. -/
def run (E : Primitives) (s : encryptionService) : List (Nat × Bytes) → Res Unit
  | [] => .ok () s
  | (command, data) :: rest =>
    match dispatch E command data s with
    | .ok _ s1 => run E s1 rest
    | .panic msg s1 => .panic msg s1
    | .exit code s1 => .exit code s1

/-- The method `readCommand` on the unread input: end of input before the size word is
`os.Exit(0)`; any other short read panics through `reportReadError`. -/
def readCommand (s : encryptionService) : Res (Nat × Option Bytes) :=
  match s.reader with
  | [] => .exit 0 s
  | b0 :: b1 :: b2 :: b3 :: rest =>
    let size := (b0 % 256) * 2 ^ 24 + (b1 % 256) * 2 ^ 16 + (b2 % 256) * 2 ^ 8 + b3 % 256
    let s1 := { s with reader := rest }
    if size < 1 then .panic "Command is too short" s1
    else
      match rest with
      | [] => .panic "Error reading input EOF" s1
      | command :: rest1 =>
        let s2 := { s with reader := rest1 }
        if size = 1 then .ok (command, none) s2
        else if rest1.length = 0 then .panic "Error reading input EOF" s2
        else if rest1.length < size - 1 then
          .panic "Error reading input unexpected EOF" { s with reader := [] }
        else
          .ok (command, some (rest1.take (size - 1))) { s with reader := rest1.drop (size - 1) }
  | _ => .panic "Error reading input unexpected EOF" { s with reader := [] }

def processCommand (E : Primitives) (s : encryptionService) : Res Unit :=
  match readCommand s with
  | .ok (command, data) s1 => dispatch E command (sl data) s1
  | .panic msg s1 => .panic msg s1
  | .exit code s1 => .exit code s1

/-- The states the process can be in between two commands: the startup state, and every
state in which a handler returned when started in such a state. -/
inductive Reachable (E : Primitives) : encryptionService → Prop where
  | start (input : Bytes) : Reachable E (startup E input)
  | step {s s1 : encryptionService} (command : Nat) (data : Bytes) :
      Reachable E s → dispatch E command data s = .ok () s1 → Reachable E s1

/-- The state in which a run of `cmds` from startup (with nothing more on standard input)
ends. -/
def stateAfter (E : Primitives) (cmds : List (Nat × Bytes)) : encryptionService :=
  match run E (startup E []) cmds with
  | .ok _ s => s
  | .panic _ s => s
  | .exit _ s => s

/-- The runs from startup, through handlers that return, without the two steps that put
the stored data key out of step with the lock key: a SetPassword issued while a data key
is held that does not open to 32 bytes under the lock key derived from the new password,
and a SetDataKey that replies 'S' after loading, as its first key, one that opens under
the lock key to another length than 32 bytes. -/
inductive SealedRun (E : Primitives) : encryptionService → Prop where
  | start (input : Bytes) : SealedRun E (startup E input)
  | step {s s1 : encryptionService} (command : Nat) (data : Bytes) :
      SealedRun E s →
      (command = 1 → ∀ e, s.encryptedDataKey = some e →
        ∃ dk, decrypt E (generateLockKey E data) e = .ret dk ∧ dk.length = 32) →
      (command = 3 → s1.stdout = s.stdout ++ frame [83] →
        ∀ lk e rest dk, s.lockKey = some lk → readField data = some (e, rest) →
          decrypt E lk e = .ret dk → dk.length = 32) →
      dispatch E command data s = .ok () s1 →
      SealedRun E s1

/-- The lock key has 32 bytes, and the stored data key, if one is held, opens under it to
32 bytes. -/
def Sealed (E : Primitives) (s : encryptionService) : Prop :=
  ∃ lk, s.lockKey = some lk ∧ lk.length = 32 ∧
    ∀ e, s.encryptedDataKey = some e → ∃ dk, decrypt E lk e = .ret dk ∧ dk.length = 32

/-- The key is held and opens under the lock key `lk` to a data key that `aes.NewCipher`
rejects: one that is not 16, 24 or 32 bytes long. -/
def BadKey (E : Primitives) (lk : Bytes) (key : Option Bytes) : Prop :=
  ∃ k dk, key = some k ∧ decrypt E lk k = .ret dk ∧ aesNewCipher dk ≠ none

/-- The key is held, opens under the lock key `lk`, and its data key opens the text. -/
def Opens (E : Primitives) (lk : Bytes) (key : Option Bytes) (data : Bytes) : Prop :=
  ∃ k dk plaintext, key = some k ∧ decrypt E lk k = .ret dk ∧
    decrypt E dk data = .ret plaintext

/-- The three cases in which a command is not promised a reply: SetDataKey with a payload
from which `readField` cannot take two fields; Encrypt while the stored data key is one
that `aes.NewCipher` rejects; Decrypt of a text with version byte 0x00 while the data key
that is tried is such a key: that of encryptedDataKey, or that of backupDataKey when
encryptedDataKey does not decrypt the text. -/
def Unanswered (E : Primitives) (command : Nat) (data : Bytes) (s : encryptionService) :
    Prop :=
  (command = 3 ∧ ¬ ∃ e rest b rest2,
    readField data = some (e, rest) ∧ readField rest = some (b, rest2)) ∨
  (command = 5 ∧ BadKey E (sl s.lockKey) s.encryptedDataKey) ∨
  (command = 6 ∧ (∃ rest, data = 0 :: rest) ∧
    (BadKey E (sl s.lockKey) s.encryptedDataKey ∨
      (¬ Opens E (sl s.lockKey) s.encryptedDataKey data ∧
        BadKey E (sl s.lockKey) s.backupDataKey)))

/-- The call did not end in the panic "Password was not set" of the guard on a nil lock
key. -/
def NoGuardAbort (r : Res Unit) : Prop :=
  ∀ s1, r ≠ .panic "Password was not set" s1

/-- Both stored keys have at most 255 bytes, so that one byte holds their length. -/
def KeyLen (s : encryptionService) : Prop :=
  (∀ e, s.encryptedDataKey = some e → e.length ≤ 255) ∧
  (∀ b, s.backupDataKey = some b → b.length ≤ 255)

/-- The three ways in which a handler started in state `s` can end: a panic with nothing
written to standard output; an error reply, written by `replyError` on the very state `s`;
or a return after one reply frame whose body starts with 'S'. -/
def Handled (s : encryptionService) (r : Res Unit) : Prop :=
  (∃ msg s1, r = .panic msg s1 ∧ s1.stdout = s.stdout) ∨
  (∃ msg, r = .ok () (replyError msg s)) ∨
  (∃ body s1, r = .ok () s1 ∧ s1.stdout = s.stdout ++ frame (83 :: body))

/-- The key state: the three fields a command may change. -/
def keys (s : encryptionService) : Option Bytes × Option Bytes × Option Bytes :=
  (s.lockKey, s.encryptedDataKey, s.backupDataKey)

/-- The text `encrypt` builds once the nonce is drawn: version byte, nonce, GCM output. -/
def envelope (E : Primitives) (key nonce data : Bytes) : Bytes :=
  0 :: (nonce ++ E.gcmSeal key nonce data)

/-- The value of `createDataKey` under lock key `lockKey` when `pos` random bytes were
drawn before: 32 random bytes for the data key, the next 12 for the nonce of its envelope. -/
def freshKey (E : Primitives) (lockKey : Bytes) (pos : Nat) : Bytes :=
  envelope E lockKey (randBytes E (pos + 32) 12) (randBytes E pos 32)

/-! ## Laws of the primitives -/

/-- Opening what was sealed under the same AES key and nonce gives the plaintext back. -/
def OpenSeal (E : Primitives) : Prop :=
  ∀ key nonce data : Bytes,
    (key.length = 16 ∨ key.length = 24 ∨ key.length = 32) → nonce.length = nonceSize →
      E.gcmOpen key nonce (E.gcmSeal key nonce data) = some data

/-- Opening under a different 32-byte key fails. -/
def WrongKeyFails (E : Primitives) : Prop :=
  ∀ key key1 nonce data : Bytes,
    key.length = 32 → key1.length = 32 → key ≠ key1 →
      E.gcmOpen key1 nonce (E.gcmSeal key nonce data) = none

/-- The GCM output is the ciphertext, as long as the plaintext, and a 16-byte tag. -/
def SealLength (E : Primitives) : Prop :=
  ∀ key nonce data : Bytes, (E.gcmSeal key nonce data).length = data.length + 16

/-- What GCM opens is 16 bytes, the tag, shorter than what it was given. -/
def OpenLength (E : Primitives) : Prop :=
  ∀ key nonce data plaintext : Bytes,
    E.gcmOpen key nonce data = some plaintext → plaintext.length + 16 = data.length

/-- The derived key has the requested length. -/
def KdfLength (E : Primitives) : Prop :=
  ∀ (password slt : Bytes) (iter keyLen : Nat),
    (E.pbkdf2Key password slt iter keyLen).length = keyLen

/-! ## A reference instance of the primitives

A small cipher with the same interface, on which the handlers can be evaluated: the
sealed text is the plaintext followed by a tag of `tagLen` bytes taken from the key.
With a 16-byte tag it has the lengths of AES-GCM; with a 32-byte tag the tag is the whole
key, so that opening under another 32-byte key fails. -/

def tagOf (tagLen : Nat) (key : Bytes) : Bytes :=
  (key ++ List.replicate tagLen 0).take tagLen

def tagSeal (tagLen : Nat) (key _nonce data : Bytes) : Bytes :=
  data ++ tagOf tagLen key

def tagOpen (tagLen : Nat) (key _nonce data : Bytes) : Option Bytes :=
  if tagLen ≤ data.length ∧ data.drop (data.length - tagLen) = tagOf tagLen key then
    some (data.take (data.length - tagLen))
  else none

def sumKdf (password slt : Bytes) (iter keyLen : Nat) : Bytes :=
  (List.range keyLen).map (fun i => (password.sum + slt.sum + iter + i) % 256)

def tagged (tagLen : Nat) : Primitives :=
  { pbkdf2Key := sumKdf
    gcmSeal := tagSeal tagLen
    gcmOpen := tagOpen tagLen
    randByte := fun i => (37 * i + 11) % 256 }

/-! ## Basic facts -/

theorem randBytes_length (E : Primitives) (pos n : Nat) : (randBytes E pos n).length = n := by
  simp [randBytes]

theorem be32_length (n : Nat) : (be32 n).length = 4 := rfl

theorem frame_inj {a b : Bytes} (h : frame a = frame b) : a = b := by
  have h1 := congrArg (List.drop 4) h
  simpa [frame, be32] using h1

theorem stdout_frame_inj {out a b : Bytes} (h : out ++ frame a = out ++ frame b) : a = b :=
  frame_inj (List.append_cancel_left h)

theorem str_E (msg : String) : str ("E" ++ msg) = 69 :: str msg := by
  simp [str, String.toList]

theorem aesNewCipher_ok {key : Bytes}
    (h : key.length = 16 ∨ key.length = 24 ∨ key.length = 32) : aesNewCipher key = none := by
  simp [aesNewCipher, h]

theorem aesNewCipher_32 {key : Bytes} (h : key.length = 32) : aesNewCipher key = none :=
  aesNewCipher_ok (Or.inr (Or.inr h))

theorem aesNewCipher_none {key : Bytes} (h : aesNewCipher key = none) :
    key.length = 16 ∨ key.length = 24 ∨ key.length = 32 := by
  unfold aesNewCipher at h
  split at h
  · assumption
  · simp at h

/-- With a key `aes.NewCipher` accepts, `encrypt` returns the version byte, the nonce drawn
from `rand.Reader` and the GCM output. -/
theorem encrypt_ok (E : Primitives) {key : Bytes} (data : Bytes) (s : encryptionService)
    (h : aesNewCipher key = none) :
    encrypt E key data s =
      .ok (0 :: (randBytes E s.randPos 12 ++ E.gcmSeal key (randBytes E s.randPos 12) data))
        { s with randPos := s.randPos + 12 } := by
  simp [encrypt, aesgcmEncrypt, h, readRand, nonceSize]

theorem decrypt_envelope (E : Primitives) (hE : OpenSeal E) {key nonce : Bytes} (data : Bytes)
    (hk : aesNewCipher key = none) (hn : nonce.length = 12) :
    decrypt E key (0 :: (nonce ++ E.gcmSeal key nonce data)) = .ret data := by
  have h1 : List.take 12 (nonce ++ E.gcmSeal key nonce data) = nonce := by
    rw [List.take_append_of_le_length (by omega)]
    exact List.take_of_length_le (by omega)
  have h2 : List.drop 12 (nonce ++ E.gcmSeal key nonce data) = E.gcmSeal key nonce data := by
    rw [← hn]; exact List.drop_left _ _
  simp [decrypt, aesgcmDecrypt, hk, nonceSize, hn, h1, h2,
    hE key nonce data (aesNewCipher_none hk) hn]

/-- A result of `decrypt` other than a panic means that `aes.NewCipher` took the key, or
that the text was rejected before the cipher was built. -/
theorem decrypt_ret_key (E : Primitives) {key data dk : Bytes}
    (h : decrypt E key data = .ret dk) : aesNewCipher key = none := by
  unfold decrypt at h
  split at h
  · simp at h
  · split at h
    · simp at h
    · unfold aesgcmDecrypt at h
      split at h
      · simp at h
      · assumption

theorem readField_encodeKey_some (k rest : Bytes) (h : k.length ≤ 254) :
    readField (encodeKey (some k) ++ rest) = some (k, rest) := by
  have h1 : k.length % 256 = k.length := Nat.mod_eq_of_lt (by omega)
  have h2 : (k.length + 1) % 256 = k.length + 1 := Nat.mod_eq_of_lt (by omega)
  simp [readField, encodeKey, h1, h2]

theorem readField_encodeKey_none (rest : Bytes) :
    readField (encodeKey none ++ rest) = some ([], rest) := by
  simp [readField, encodeKey]

/-! ## The reference instance satisfies the laws -/

theorem tagOf_length (n : Nat) (key : Bytes) : (tagOf n key).length = n := by
  simp [tagOf]

theorem tagOf_32 {key : Bytes} (h : key.length = 32) : tagOf 32 key = key := by
  unfold tagOf
  rw [List.take_append_of_le_length (by omega)]
  exact List.take_of_length_le (by omega)

theorem tagOpen_tagSeal (n : Nat) (key nonce data : Bytes) :
    tagOpen n key nonce (tagSeal n key nonce data) = some data := by
  have h1 : (data ++ tagOf n key).length - n = data.length := by
    simp [tagOf_length]
  simp [tagOpen, tagSeal, h1, tagOf_length]

theorem tagged_openSeal (n : Nat) : OpenSeal (tagged n) := by
  intro key nonce data _ _
  exact tagOpen_tagSeal n key nonce data

theorem tagged_sealLength : SealLength (tagged 16) := by
  intro key nonce data
  simp [tagged, tagSeal, tagOf_length]

theorem tagged_kdfLength (n : Nat) : KdfLength (tagged n) := by
  intro password slt iter keyLen
  simp [tagged, sumKdf]

theorem tagged_wrongKeyFails : WrongKeyFails (tagged 32) := by
  intro key key1 nonce data hk hk1 hne
  have h1 : (data ++ key).length - 32 = data.length := by simp [hk]
  simp only [tagged, tagOpen, tagSeal, tagOf_32 hk, tagOf_32 hk1, h1, List.drop_left]
  simp [hne]

/-! ## What each handler does on its main path -/

theorem generateLockKey_length (E : Primitives) (hK : KdfLength E) (password : Bytes) :
    (generateLockKey E password).length = 32 :=
  hK password salt nIterations keySize

theorem freshKey_length (E : Primitives) (hL : SealLength E) (lk : Bytes) (pos : Nat) :
    (freshKey E lk pos).length = 61 := by
  simp [freshKey, envelope, randBytes_length, hL _ _ _]

theorem decrypt_freshKey (E : Primitives) (hE : OpenSeal E) {lk : Bytes} (pos : Nat)
    (hk : aesNewCipher lk = none) :
    decrypt E lk (freshKey E lk pos) = .ret (randBytes E pos 32) :=
  decrypt_envelope E hE _ hk (randBytes_length E _ _)

theorem createDataKey_ok (E : Primitives) (s : encryptionService) {lk : Bytes}
    (hlk : s.lockKey = some lk) (hk : aesNewCipher lk = none) :
    createDataKey E s = .ok (freshKey E lk s.randPos) { s with randPos := s.randPos + 44 } := by
  simp [createDataKey, readRand, sl, hlk, encrypt_ok E _ _ hk, freshKey, envelope, keySize,
    Nat.add_assoc]

theorem cmdCreateDataKey_ok (E : Primitives) (s : encryptionService) {lk : Bytes}
    (hlk : s.lockKey = some lk) (hk : aesNewCipher lk = none) :
    cmdCreateDataKey E s =
      .ok () (replySuccessWithData (combineDataKeys (some (freshKey E lk s.randPos)) none)
        { s with randPos := s.randPos + 44 }) := by
  simp [cmdCreateDataKey, hlk, createDataKey_ok E s hlk hk]

theorem cmdSetDataKey_single (E : Primitives) (s : encryptionService) {lk e dk : Bytes}
    (hlk : s.lockKey = some lk) (he : e.length ≤ 254) (hd : decrypt E lk e = .ret dk) :
    cmdSetDataKey E (combineDataKeys (some e) none) s =
      .ok () (replySuccess { s with backupDataKey := none, encryptedDataKey := some e }) := by
  have h1 := readField_encodeKey_some e (encodeKey none) he
  have h2 : readField (encodeKey none) = some ([], []) := by simp [readField, encodeKey]
  simp [cmdSetDataKey, hlk, combineDataKeys, h1, h2, hd]

theorem cmdEncrypt_ok (E : Primitives) (data : Bytes) (s : encryptionService) {lk e dk : Bytes}
    (hlk : s.lockKey = some lk) (he : s.encryptedDataKey = some e)
    (hd : decrypt E lk e = .ret dk) (hk : aesNewCipher dk = none) :
    cmdEncrypt E data s =
      .ok () (replySuccessWithData (envelope E dk (randBytes E s.randPos 12) data)
        { s with randPos := s.randPos + 12 }) := by
  simp [cmdEncrypt, hlk, he, sl, hd, encrypt_ok E _ _ hk, envelope]

theorem cmdDecrypt_primary (E : Primitives) (data : Bytes) (s : encryptionService)
    {lk e dk plaintext : Bytes}
    (hlk : s.lockKey = some lk) (he : s.encryptedDataKey = some e)
    (hd : decrypt E lk e = .ret dk) (hp : decrypt E dk data = .ret plaintext) :
    cmdDecrypt E data s = .ok () (replySuccessWithData plaintext s) := by
  simp [cmdDecrypt, decryptWithKey, hlk, he, sl, hd, hp]

theorem replyError_eq (msg : String) (s : encryptionService) :
    replyError msg s = { s with stdout := s.stdout ++ frame (69 :: str msg) } := by
  simp [replyError, doReply, str_E]

/-- Without a data key held, `Encrypt` answers with the error of `decrypt` on an empty text. -/
theorem cmdEncrypt_no_key (E : Primitives) (data : Bytes) (s : encryptionService) {lk : Bytes}
    (hlk : s.lockKey = some lk) (he : s.encryptedDataKey = none) :
    cmdEncrypt E data s =
      .ok () { s with stdout := s.stdout ++ frame (69 :: str "ciphertext is too short") } := by
  rw [← replyError_eq]
  simp [cmdEncrypt, hlk, he, sl, decrypt]

/-- The state after SetPassword and CreateDataKey from startup. -/
theorem run_setPassword_create (E : Primitives) (hK : KdfLength E) (input password : Bytes) :
    run E (startup E input) [(1, password), (2, [])] =
      .ok () { lockKey := some (generateLockKey E password)
               encryptedDataKey := none
               backupDataKey := none
               reader := input
               randPos := 44
               stdout := frame [83] ++ frame (83 ::
                 combineDataKeys (some (freshKey E (generateLockKey E password) 0)) none) } := by
  have hk : aesNewCipher (generateLockKey E password) = none :=
    aesNewCipher_32 (generateLockKey_length E hK _)
  simp only [run, dispatch, cmdSetPassword]
  rw [cmdCreateDataKey_ok E _ rfl hk]
  rfl

theorem dispatch_setDataKey (E : Primitives) (data : Bytes) (s : encryptionService) :
    dispatch E 3 data s = cmdSetDataKey E data s := rfl

theorem dispatch_encrypt (E : Primitives) (data : Bytes) (s : encryptionService) :
    dispatch E 5 data s = cmdEncrypt E data s := rfl

theorem dispatch_decrypt (E : Primitives) (data : Bytes) (s : encryptionService) :
    dispatch E 6 data s = cmdDecrypt E data s := rfl

/-! ## CreateDataKey -/

/-- C1, as amended: in every state whose lock key is present and 32 bytes long,
CreateDataKey changes none of lockKey, encryptedDataKey and backupDataKey; its reply is
'S', then the encoded freshly sealed key, then the single byte 0x00; and a GetDataKey
issued right after replies with the pair that was held before the command. -/
theorem cmdCreateDataKey_leaves_keys (E : Primitives) (s : encryptionService) (lk : Bytes)
    (hlk : s.lockKey = some lk) (hlen : lk.length = 32) :
    ∃ s1, cmdCreateDataKey E s = .ok () s1 ∧ keys s1 = keys s ∧
      s1.stdout = s.stdout ++ frame (83 :: (encodeKey (some (freshKey E lk s.randPos)) ++ [0])) ∧
      cmdGetDataKey s1 = .ok () { s1 with stdout := (s1.stdout ++
        frame (83 :: (encodeKey s.encryptedDataKey ++ encodeKey s.backupDataKey))) } := by
  refine ⟨_, cmdCreateDataKey_ok E s hlk (aesNewCipher_32 hlen), rfl, rfl, rfl⟩

theorem cmdCreateDataKey_leaves_keys_witness :
    (startup (tagged 16) []).lockKey = some (generateLockKey (tagged 16) []) ∧
    (generateLockKey (tagged 16) []).length = 32 ∧
    ∃ s1, cmdCreateDataKey (tagged 16) (startup (tagged 16) []) = .ok () s1 ∧
      keys s1 = keys (startup (tagged 16) []) ∧
      s1.stdout = (startup (tagged 16) []).stdout ++ frame (83 ::
        (encodeKey (some (freshKey (tagged 16) (generateLockKey (tagged 16) [])
          (startup (tagged 16) []).randPos)) ++ [0])) ∧
      cmdGetDataKey s1 = .ok () { s1 with stdout := (s1.stdout ++
        frame (83 :: (encodeKey (startup (tagged 16) []).encryptedDataKey ++
          encodeKey (startup (tagged 16) []).backupDataKey))) } :=
  ⟨rfl, rfl, cmdCreateDataKey_leaves_keys (tagged 16) (startup (tagged 16) [])
    (generateLockKey (tagged 16) []) rfl rfl⟩

/-- C1 fails as stated. In the startup state CreateDataKey replies with a new key and
leaves encryptedDataKey absent, so the GetDataKey that follows replies 'S' 0x00 0x00; and
in the state after two RotateDataKey commands, which holds a backup key, CreateDataKey
leaves encryptedDataKey as it was and ends its reply with 0x00, not with the encoded
backup key. -/
theorem cmdCreateDataKey_not_stored :
    (∃ s1, cmdCreateDataKey (tagged 16) (startup (tagged 16) []) = .ok () s1 ∧
      s1.stdout = frame (83 :: (encodeKey
        (some (freshKey (tagged 16) (generateLockKey (tagged 16) []) 0)) ++ [0])) ∧
      s1.encryptedDataKey = none ∧
      cmdGetDataKey s1 = .ok () { s1 with stdout := s1.stdout ++ frame [83, 0, 0] }) ∧
    (∃ s e b s1, run (tagged 16) (startup (tagged 16) []) [(8, []), (8, [])] = .ok () s ∧
      s.encryptedDataKey = some e ∧ s.backupDataKey = some b ∧
      cmdCreateDataKey (tagged 16) s = .ok () s1 ∧
      s1.encryptedDataKey = some e ∧
      s1.stdout = s.stdout ++ frame (83 :: (encodeKey
        (some (freshKey (tagged 16) (generateLockKey (tagged 16) []) 88)) ++ [0])) ∧
      encodeKey (some b) ≠ [0]) :=
  ⟨⟨_, rfl, rfl, rfl, rfl⟩, ⟨_, _, _, _, rfl, rfl, rfl, rfl, rfl, rfl, by decide⟩⟩

/-! ## The round trip of scenario 3 -/

/-- After SetPassword and CreateDataKey from startup no data key is held, and Encrypt
replies with an error, whatever the primitives are. -/
theorem encrypt_after_create (E : Primitives) (hK : KdfLength E) (input data : Bytes) :
    ∃ s2, run E (startup E input) [(1, str "hunter2"), (2, [])] = .ok () s2 ∧
      s2.encryptedDataKey = none ∧
      dispatch E 5 data s2 =
        .ok () { s2 with stdout := s2.stdout ++ frame (69 :: str "ciphertext is too short") } := by
  refine ⟨_, run_setPassword_create E hK input _, rfl, ?_⟩
  rw [dispatch_encrypt]
  exact cmdEncrypt_no_key E data _ rfl rfl

/-- C2 fails as stated: after SetPassword("hunter2") and CreateDataKey from startup, the
reply to Encrypt("hello") is 'E' followed by "ciphertext is too short". -/
theorem scenario3_encrypt_replies_error :
    ∃ s2, run (tagged 16) (startup (tagged 16) []) [(1, str "hunter2"), (2, [])] = .ok () s2 ∧
      s2.encryptedDataKey = none ∧
      dispatch (tagged 16) 5 (str "hello") s2 =
        .ok () { s2 with stdout := s2.stdout ++ frame (69 :: str "ciphertext is too short") } :=
  encrypt_after_create (tagged 16) (tagged_kdfLength 16) [] (str "hello")

theorem run_cons_ok (E : Primitives) {s s1 : encryptionService} {command : Nat} {data : Bytes}
    (rest : List (Nat × Bytes)) (h : dispatch E command data s = .ok () s1) :
    run E s ((command, data) :: rest) = run E s1 rest := by
  simp [run, h]

theorem run_append_ok (E : Primitives) {s s1 : encryptionService} {l1 : List (Nat × Bytes)}
    (l2 : List (Nat × Bytes)) (h : run E s l1 = .ok () s1) :
    run E s (l1 ++ l2) = run E s1 l2 := by
  induction l1 generalizing s with
  | nil => simp only [run, Res.ok.injEq, true_and] at h; simp [h]
  | cons c rest ih =>
    obtain ⟨command, data⟩ := c
    simp only [run, List.cons_append] at h ⊢
    cases hd : dispatch E command data s with
    | ok a s2 => rw [hd] at h; exact ih h
    | panic msg s2 => rw [hd] at h; simp at h
    | exit code s2 => rw [hd] at h; simp at h

/-- C2, as amended: from startup, after SetPassword("hunter2"), CreateDataKey, and a
SetDataKey whose payload is the key pair that CreateDataKey replied, Encrypt("hello")
replies 'S' followed by a ciphertext ct, and the following Decrypt(ct) replies 'S'
followed by "hello"; under the laws that the derived key has the requested length,
that opening undoes sealing, and that the GCM output is 16 bytes longer than the
plaintext. The five replies on standard output are 'S', 'S' with the new key pair,
'S', 'S' with ct, and 'S' with "hello". -/
theorem scenario3_with_setDataKey (E : Primitives) (hK : KdfLength E) (hE : OpenSeal E)
    (hL : SealLength E) (input : Bytes) :
    ∃ pair ct s5,
      run E (startup E input)
        [(1, str "hunter2"), (2, []), (3, pair), (5, str "hello"), (6, ct)] = .ok () s5 ∧
      s5.stdout = frame [83] ++ frame (83 :: pair) ++ frame [83] ++ frame (83 :: ct) ++
        frame (83 :: str "hello") := by
  have hk : aesNewCipher (generateLockKey E (str "hunter2")) = none :=
    aesNewCipher_32 (generateLockKey_length E hK _)
  have hd := decrypt_freshKey E hE 0 hk
  have hdk : aesNewCipher (randBytes E 0 32) = none := aesNewCipher_32 (randBytes_length E _ _)
  have hlen : (freshKey E (generateLockKey E (str "hunter2")) 0).length ≤ 254 := by
    rw [freshKey_length E hL]; omega
  have h12 := run_setPassword_create E hK input (str "hunter2")
  have h3 : dispatch E 3 (combineDataKeys (some (freshKey E (generateLockKey E (str "hunter2")) 0)) none)
        ({ lockKey := some (generateLockKey E (str "hunter2")),
           encryptedDataKey := none,
           backupDataKey := none,
           reader := input,
           randPos := 44,
           stdout := frame [83] ++
            frame (83 :: combineDataKeys (some (freshKey E (generateLockKey E (str "hunter2")) 0)) none) } : encryptionService) =
      .ok ()
        ({ lockKey := some (generateLockKey E (str "hunter2")),
           encryptedDataKey := some (freshKey E (generateLockKey E (str "hunter2")) 0),
           backupDataKey := none,
           reader := input,
           randPos := 44,
           stdout := frame [83] ++
            frame (83 :: combineDataKeys (some (freshKey E (generateLockKey E (str "hunter2")) 0)) none) ++
            frame [83] } : encryptionService) :=
    by rw [dispatch_setDataKey]; exact cmdSetDataKey_single E _ rfl hlen hd
  have h4 : dispatch E 5 (str "hello")
        ({ lockKey := some (generateLockKey E (str "hunter2")),
           encryptedDataKey := some (freshKey E (generateLockKey E (str "hunter2")) 0),
           backupDataKey := none,
           reader := input,
           randPos := 44,
           stdout := frame [83] ++
            frame (83 :: combineDataKeys (some (freshKey E (generateLockKey E (str "hunter2")) 0)) none) ++
            frame [83] } : encryptionService) =
      .ok ()
        ({ lockKey := some (generateLockKey E (str "hunter2")),
           encryptedDataKey := some (freshKey E (generateLockKey E (str "hunter2")) 0),
           backupDataKey := none,
           reader := input,
           randPos := 56,
           stdout := frame [83] ++
            frame (83 :: combineDataKeys (some (freshKey E (generateLockKey E (str "hunter2")) 0)) none) ++
            frame [83] ++
            frame (83 :: envelope E (randBytes E 0 32) (randBytes E 44 12) (str "hello")) } : encryptionService) :=
    by rw [dispatch_encrypt]; exact cmdEncrypt_ok E _ _ rfl rfl hd hdk
  have h5 : dispatch E 6 (envelope E (randBytes E 0 32) (randBytes E 44 12) (str "hello"))
        ({ lockKey := some (generateLockKey E (str "hunter2")),
           encryptedDataKey := some (freshKey E (generateLockKey E (str "hunter2")) 0),
           backupDataKey := none,
           reader := input,
           randPos := 56,
           stdout := frame [83] ++
            frame (83 :: combineDataKeys (some (freshKey E (generateLockKey E (str "hunter2")) 0)) none) ++
            frame [83] ++
            frame (83 :: envelope E (randBytes E 0 32) (randBytes E 44 12) (str "hello")) } : encryptionService) =
      .ok ()
        ({ lockKey := some (generateLockKey E (str "hunter2")),
           encryptedDataKey := some (freshKey E (generateLockKey E (str "hunter2")) 0),
           backupDataKey := none,
           reader := input,
           randPos := 56,
           stdout := frame [83] ++
            frame (83 :: combineDataKeys (some (freshKey E (generateLockKey E (str "hunter2")) 0)) none) ++
            frame [83] ++
            frame (83 :: envelope E (randBytes E 0 32) (randBytes E 44 12) (str "hello")) ++
            frame (83 :: str "hello") } : encryptionService) :=
    by
      rw [dispatch_decrypt]
      exact cmdDecrypt_primary E _ _ rfl rfl hd
        (decrypt_envelope E hE _ hdk (randBytes_length E _ _))
  have happ := run_append_ok E
    [(3, combineDataKeys (some (freshKey E (generateLockKey E (str "hunter2")) 0)) none),
     (5, str "hello"), (6, envelope E (randBytes E 0 32) (randBytes E 44 12) (str "hello"))] h12
  simp only [List.cons_append, List.nil_append] at happ
  have hrun := happ.trans ((run_cons_ok E _ h3).trans
    ((run_cons_ok E _ h4).trans (run_cons_ok E [] h5)))
  exact ⟨_, _, _, hrun, rfl⟩

theorem scenario3_with_setDataKey_witness :
    KdfLength (tagged 16) ∧ OpenSeal (tagged 16) ∧ SealLength (tagged 16) ∧
    ∃ pair ct s5,
      run (tagged 16) (startup (tagged 16) [])
        [(1, str "hunter2"), (2, []), (3, pair), (5, str "hello"), (6, ct)] = .ok () s5 ∧
      s5.stdout = frame [83] ++ frame (83 :: pair) ++ frame [83] ++ frame (83 :: ct) ++
        frame (83 :: str "hello") :=
  ⟨tagged_kdfLength 16, tagged_openSeal 16, tagged_sealLength,
    scenario3_with_setDataKey (tagged 16) (tagged_kdfLength 16) (tagged_openSeal 16)
      tagged_sealLength []⟩

/-! ## The key-field encoding -/

/-- Reading back the two fields of a key pair whose keys have at most 254 bytes gives the
first key, then the second (empty when absent), and leaves nothing over. -/
theorem readField_combineDataKeys (edk : Bytes) (bdk : Option Bytes) (h1 : edk.length ≤ 254)
    (h2 : (sl bdk).length ≤ 254) :
    ∃ rest, readField (combineDataKeys (some edk) bdk) = some (edk, rest) ∧
      readField rest = some (sl bdk, []) := by
  refine ⟨encodeKey bdk, readField_encodeKey_some edk _ h1, ?_⟩
  cases bdk with
  | none => simpa using readField_encodeKey_none []
  | some b => simpa [sl] using readField_encodeKey_some b [] (by simpa [sl] using h2)

/-- C3, the failing input: for a key of 255 bytes, the longest that `encodeKey` can
describe, `readField` on the encoded pair panics: `size+1` wraps to 0 in `byte`
arithmetic and the slice `b[1:0]` is out of range. The same happens at the second field
when the backup key has 255 bytes. -/
theorem readField_255_panics :
    readField (combineDataKeys (some (List.replicate 255 7)) none) = none ∧
    (∃ rest, readField (combineDataKeys (some [1]) (some (List.replicate 255 7)))
        = some ([1], rest) ∧ readField rest = none) :=
  ⟨by rfl, ⟨_, by rfl, by rfl⟩⟩

/-! ## RotateDataKey -/

theorem cmdRotateDataKey_in_progress (E : Primitives) (s : encryptionService) {lk b : Bytes}
    (hlk : s.lockKey = some lk) (hb : s.backupDataKey = some b) :
    cmdRotateDataKey E s =
      .ok () { s with stdout := (s.stdout ++
        frame (69 :: str "Data key rotation is in progress")) } := by
  rw [← replyError_eq]
  simp [cmdRotateDataKey, hlk, hb]

theorem cmdRotateDataKey_ok (E : Primitives) (s : encryptionService) {lk : Bytes}
    (hlk : s.lockKey = some lk) (hk : aesNewCipher lk = none) (hb : s.backupDataKey = none) :
    cmdRotateDataKey E s =
      .ok () { s with
        backupDataKey := s.encryptedDataKey
        encryptedDataKey := some (freshKey E lk s.randPos)
        randPos := s.randPos + 44
        stdout := s.stdout ++ frame (83 ::
          (encodeKey (some (freshKey E lk s.randPos)) ++ encodeKey s.encryptedDataKey)) } := by
  simp only [cmdRotateDataKey, hlk, hb]
  rw [createDataKey_ok E _ rfl hk]
  rfl

/-- C8: in every state with a 32-byte lock key and encryptedDataKey = e present: if
backupDataKey is present, RotateDataKey replies 'E' + "Data key rotation is in progress"
and changes no key; if backupDataKey is absent, it sets backupDataKey to e, sets
encryptedDataKey to a newly sealed random 32-byte key n under the unchanged lockKey, and
replies 'S' + encoded(n) + encoded(e). -/
theorem cmdRotateDataKey_spec (E : Primitives) (s : encryptionService) (lk e : Bytes)
    (hlk : s.lockKey = some lk) (hlen : lk.length = 32) (he : s.encryptedDataKey = some e) :
    (∀ b, s.backupDataKey = some b →
      cmdRotateDataKey E s = .ok () { s with stdout := (s.stdout ++
        frame (69 :: str "Data key rotation is in progress")) }) ∧
    (s.backupDataKey = none →
      cmdRotateDataKey E s = .ok () { s with
        backupDataKey := some e
        encryptedDataKey := some (freshKey E lk s.randPos)
        randPos := s.randPos + 44
        stdout := s.stdout ++ frame (83 ::
          (encodeKey (some (freshKey E lk s.randPos)) ++ encodeKey (some e))) }) ∧
    freshKey E lk s.randPos =
      0 :: (randBytes E (s.randPos + 32) 12 ++
        E.gcmSeal lk (randBytes E (s.randPos + 32) 12) (randBytes E s.randPos 32)) ∧
    (randBytes E s.randPos 32).length = 32 := by
  refine ⟨fun b hb => cmdRotateDataKey_in_progress E s hlk hb, fun hb => ?_, rfl,
    randBytes_length E _ _⟩
  rw [cmdRotateDataKey_ok E s hlk (aesNewCipher_32 hlen) hb, he]

theorem cmdRotateDataKey_spec_witness :
    (stateAfter (tagged 16) [(8, [])]).lockKey = some (generateLockKey (tagged 16) []) ∧
    (stateAfter (tagged 16) [(8, [])]).encryptedDataKey =
      some (freshKey (tagged 16) (generateLockKey (tagged 16) []) 0) ∧
    (stateAfter (tagged 16) [(8, [])]).backupDataKey = none ∧
    cmdRotateDataKey (tagged 16) (stateAfter (tagged 16) [(8, [])]) =
      .ok () { stateAfter (tagged 16) [(8, [])] with
        backupDataKey := some (freshKey (tagged 16) (generateLockKey (tagged 16) []) 0)
        encryptedDataKey := some (freshKey (tagged 16) (generateLockKey (tagged 16) []) 44)
        randPos := 88
        stdout := (stateAfter (tagged 16) [(8, [])]).stdout ++ frame (83 ::
          (encodeKey (some (freshKey (tagged 16) (generateLockKey (tagged 16) []) 44)) ++
            encodeKey (some (freshKey (tagged 16) (generateLockKey (tagged 16) []) 0)))) } :=
  ⟨rfl, rfl, rfl,
    (cmdRotateDataKey_spec (tagged 16) (stateAfter (tagged 16) [(8, [])])
      (generateLockKey (tagged 16) []) (freshKey (tagged 16) (generateLockKey (tagged 16) []) 0)
      rfl rfl rfl).2.1 rfl⟩

/-- C7, as amended: in every state with a 32-byte lock key that holds a data key or a
backup key, after two consecutive RotateDataKey commands the key state (lockKey,
encryptedDataKey, backupDataKey) equals the key state after the first one, and the second
reply is 'E' followed by "Data key rotation is in progress". -/
theorem cmdRotateDataKey_twice (E : Primitives) (s : encryptionService) (lk : Bytes)
    (hlk : s.lockKey = some lk) (hlen : lk.length = 32)
    (hkey : s.encryptedDataKey ≠ none ∨ s.backupDataKey ≠ none) :
    ∃ s1 s2, cmdRotateDataKey E s = .ok () s1 ∧ cmdRotateDataKey E s1 = .ok () s2 ∧
      keys s2 = keys s1 ∧
      s2.stdout = s1.stdout ++ frame (69 :: str "Data key rotation is in progress") := by
  cases hb : s.backupDataKey with
  | some b =>
    exact ⟨_, _, cmdRotateDataKey_in_progress E s hlk hb,
      cmdRotateDataKey_in_progress E
        { s with stdout := (s.stdout ++ frame (69 :: str "Data key rotation is in progress")) }
        hlk hb, rfl, rfl⟩
  | none =>
    cases he : s.encryptedDataKey with
    | none => simp [he, hb] at hkey
    | some e =>
      exact ⟨_, _, cmdRotateDataKey_ok E s hlk (aesNewCipher_32 hlen) hb,
        cmdRotateDataKey_in_progress E
          { s with
            backupDataKey := s.encryptedDataKey
            encryptedDataKey := some (freshKey E lk s.randPos)
            randPos := s.randPos + 44
            stdout := s.stdout ++ frame (83 ::
              (encodeKey (some (freshKey E lk s.randPos)) ++ encodeKey s.encryptedDataKey)) }
          hlk he, rfl, rfl⟩

theorem cmdRotateDataKey_twice_witness :
    (stateAfter (tagged 16) [(8, [])]).lockKey = some (generateLockKey (tagged 16) []) ∧
    (generateLockKey (tagged 16) []).length = 32 ∧
    (stateAfter (tagged 16) [(8, [])]).encryptedDataKey ≠ none ∧
    ∃ s1 s2, cmdRotateDataKey (tagged 16) (stateAfter (tagged 16) [(8, [])]) = .ok () s1 ∧
      cmdRotateDataKey (tagged 16) s1 = .ok () s2 ∧ keys s2 = keys s1 ∧
      s2.stdout = s1.stdout ++ frame (69 :: str "Data key rotation is in progress") :=
  ⟨rfl, rfl, by decide,
    cmdRotateDataKey_twice (tagged 16) (stateAfter (tagged 16) [(8, [])])
      (generateLockKey (tagged 16) []) rfl rfl (Or.inl (by decide))⟩

/-- C7 fails as stated, at the startup state that the claim names: the first
RotateDataKey moves the absent data key into the backup, which stays absent, so the second
RotateDataKey is not refused. It replies 'S' with a new key pair, and the key state after
it differs from the key state after the first. -/
theorem cmdRotateDataKey_twice_from_startup :
    ∃ s1 s2, cmdRotateDataKey (tagged 16) (startup (tagged 16) []) = .ok () s1 ∧
      s1.backupDataKey = none ∧
      cmdRotateDataKey (tagged 16) s1 = .ok () s2 ∧
      keys s2 ≠ keys s1 ∧
      s2.stdout = s1.stdout ++
        frame (83 :: combineDataKeys s2.encryptedDataKey s2.backupDataKey) ∧
      s2.backupDataKey = s1.encryptedDataKey :=
  ⟨_, _, rfl, rfl, rfl, by decide, rfl, rfl⟩

/-! ## Decrypt undoes Encrypt -/

theorem decrypt_envelope_wrong (E : Primitives) (hW : WrongKeyFails E) {key key1 nonce : Bytes}
    (data : Bytes) (hk : key.length = 32) (hk1 : key1.length = 32) (hne : key ≠ key1)
    (hn : nonce.length = 12) :
    decrypt E key1 (envelope E key nonce data) = .err "cipher: message authentication failed" := by
  have h1 : List.take 12 (nonce ++ E.gcmSeal key nonce data) = nonce := by
    rw [List.take_append_of_le_length (by omega)]
    exact List.take_of_length_le (by omega)
  have h2 : List.drop 12 (nonce ++ E.gcmSeal key nonce data) = E.gcmSeal key nonce data := by
    rw [← hn]; exact List.drop_left _ _
  simp [envelope, decrypt, aesgcmDecrypt, aesNewCipher_32 hk1, nonceSize, hn, h1, h2,
    hW key key1 nonce data hk hk1 hne]

theorem cmdDecrypt_backup (E : Primitives) (data : Bytes) (s : encryptionService)
    {lk e dk b dkb plaintext : Bytes} {msg : String}
    (hlk : s.lockKey = some lk) (he : s.encryptedDataKey = some e)
    (hd : decrypt E lk e = .ret dk) (hp : decrypt E dk data = .err msg)
    (hb : s.backupDataKey = some b) (hdb : decrypt E lk b = .ret dkb)
    (hpb : decrypt E dkb data = .ret plaintext) :
    cmdDecrypt E data s = .ok () (replySuccessWithData plaintext s) := by
  simp [cmdDecrypt, decryptWithKey, hlk, he, sl, hd, hp, hb, hdb, hpb]

/-- C9: Decrypt undoes Encrypt, also across one rotation. In every state whose
encryptedDataKey opens under lockKey to a 32-byte key and whose backupDataKey is absent,
for every plaintext P: if Encrypt(P) replies 'S' + ct, then Decrypt(ct) right after
replies 'S' + P, and so does Decrypt(ct) after one RotateDataKey; under the laws that
opening undoes sealing and that opening under another 32-byte key fails. -/
theorem decrypt_undoes_encrypt (E : Primitives) (hE : OpenSeal E) (hW : WrongKeyFails E)
    (s s1 : encryptionService) (lk e dk P ct : Bytes)
    (hlk : s.lockKey = some lk) (he : s.encryptedDataKey = some e)
    (hb : s.backupDataKey = none) (hd : decrypt E lk e = .ret dk) (hdk : dk.length = 32)
    (henc : cmdEncrypt E P s = .ok () s1) (hout : s1.stdout = s.stdout ++ frame (83 :: ct)) :
    (∃ s2, cmdDecrypt E ct s1 = .ok () s2 ∧ s2.stdout = s1.stdout ++ frame (83 :: P)) ∧
    (∃ s2 s3, cmdRotateDataKey E s1 = .ok () s2 ∧ cmdDecrypt E ct s2 = .ok () s3 ∧
      s3.stdout = s2.stdout ++ frame (83 :: P)) := by
  have hk : aesNewCipher lk = none := decrypt_ret_key E hd
  have hdk1 : aesNewCipher dk = none := aesNewCipher_32 hdk
  have hs1 := (cmdEncrypt_ok E P s hlk he hd hdk1).symm.trans henc
  simp only [Res.ok.injEq, true_and] at hs1
  have hct : ct = envelope E dk (randBytes E s.randPos 12) P := by
    rw [← hs1] at hout
    have h := stdout_frame_inj hout
    simp only [List.cons.injEq, true_and] at h
    exact h.symm
  have h1lk : s1.lockKey = some lk := by rw [← hs1]; exact hlk
  have h1e : s1.encryptedDataKey = some e := by rw [← hs1]; exact he
  have h1b : s1.backupDataKey = none := by rw [← hs1]; exact hb
  have hp : decrypt E dk ct = .ret P := by
    rw [hct]; exact decrypt_envelope E hE P hdk1 (randBytes_length E _ _)
  refine ⟨⟨_, cmdDecrypt_primary E ct s1 h1lk h1e hd hp, rfl⟩, ?_⟩
  have hrot := cmdRotateDataKey_ok E s1 h1lk hk h1b
  have hfresh := decrypt_freshKey E hE s1.randPos hk
  by_cases heq : randBytes E s1.randPos 32 = dk
  · rw [heq] at hfresh
    exact ⟨_, _, hrot, cmdDecrypt_primary E ct _ h1lk rfl hfresh hp, rfl⟩
  · have hwrong : decrypt E (randBytes E s1.randPos 32) ct =
        .err "cipher: message authentication failed" := by
      rw [hct]
      exact decrypt_envelope_wrong E hW P hdk (randBytes_length E _ _) (Ne.symm heq)
        (randBytes_length E _ _)
    exact ⟨_, _, hrot, cmdDecrypt_backup E ct _ h1lk rfl hfresh hwrong h1e hd hp, rfl⟩

theorem decrypt_undoes_encrypt_witness :
    OpenSeal (tagged 32) ∧ WrongKeyFails (tagged 32) ∧
    (stateAfter (tagged 32) [(8, [])]).backupDataKey = none ∧
    decrypt (tagged 32) (generateLockKey (tagged 32) [])
      (freshKey (tagged 32) (generateLockKey (tagged 32) []) 0) =
      .ret (randBytes (tagged 32) 0 32) ∧
    (∃ s2, cmdDecrypt (tagged 32)
        (envelope (tagged 32) (randBytes (tagged 32) 0 32) (randBytes (tagged 32) 44 12)
          (str "hello"))
        (stateAfter (tagged 32) [(8, []), (5, str "hello")]) = .ok () s2 ∧
      s2.stdout = (stateAfter (tagged 32) [(8, []), (5, str "hello")]).stdout ++
        frame (83 :: str "hello")) ∧
    (∃ s2 s3,
      cmdRotateDataKey (tagged 32) (stateAfter (tagged 32) [(8, []), (5, str "hello")]) =
        .ok () s2 ∧
      cmdDecrypt (tagged 32)
        (envelope (tagged 32) (randBytes (tagged 32) 0 32) (randBytes (tagged 32) 44 12)
          (str "hello")) s2 = .ok () s3 ∧
      s3.stdout = s2.stdout ++ frame (83 :: str "hello")) :=
  ⟨tagged_openSeal 32, tagged_wrongKeyFails, rfl, rfl,
    decrypt_undoes_encrypt (tagged 32) (tagged_openSeal 32) tagged_wrongKeyFails
      (stateAfter (tagged 32) [(8, [])]) (stateAfter (tagged 32) [(8, []), (5, str "hello")])
      (generateLockKey (tagged 32) []) (freshKey (tagged 32) (generateLockKey (tagged 32) []) 0)
      (randBytes (tagged 32) 0 32) (str "hello")
      (envelope (tagged 32) (randBytes (tagged 32) 0 32) (randBytes (tagged 32) 44 12)
        (str "hello"))
      rfl rfl rfl rfl rfl rfl rfl⟩

/-! ## ChangePassword -/

theorem cmdChangePassword_single (E : Primitives) (p : Bytes) (s : encryptionService)
    {lk e dk : Bytes} (hlk : s.lockKey = some lk) (he : s.encryptedDataKey = some e)
    (hd : decrypt E lk e = .ret dk) (hb : s.backupDataKey = none)
    (hk : aesNewCipher (generateLockKey E p) = none) :
    cmdChangePassword E p s =
      .ok () { s with
        lockKey := some (generateLockKey E p)
        encryptedDataKey := some (envelope E (generateLockKey E p) (randBytes E s.randPos 12) dk)
        backupDataKey := none
        randPos := s.randPos + 12
        stdout := s.stdout ++ frame (83 :: (encodeKey
          (some (envelope E (generateLockKey E p) (randBytes E s.randPos 12) dk)) ++
          encodeKey none)) } := by
  simp [cmdChangePassword, hlk, hb, he, sl, hd, encrypt_ok E _ _ hk]
  rfl

theorem cmdChangePassword_pair (E : Primitives) (p : Bytes) (s : encryptionService)
    {lk e dk b dkb : Bytes} (hlk : s.lockKey = some lk) (he : s.encryptedDataKey = some e)
    (hd : decrypt E lk e = .ret dk) (hb : s.backupDataKey = some b)
    (hdb : decrypt E lk b = .ret dkb) (hk : aesNewCipher (generateLockKey E p) = none) :
    cmdChangePassword E p s =
      .ok () { s with
        lockKey := some (generateLockKey E p)
        encryptedDataKey := some (envelope E (generateLockKey E p) (randBytes E s.randPos 12) dk)
        backupDataKey :=
          some (envelope E (generateLockKey E p) (randBytes E (s.randPos + 12) 12) dkb)
        randPos := s.randPos + 12 + 12
        stdout := s.stdout ++ frame (83 :: (encodeKey
          (some (envelope E (generateLockKey E p) (randBytes E s.randPos 12) dk)) ++
          encodeKey
            (some (envelope E (generateLockKey E p) (randBytes E (s.randPos + 12) 12) dkb)))) } := by
  simp [cmdChangePassword, hlk, hb, he, sl, hd, hdb, encrypt_ok E _ _ hk]
  rfl

/-- C10: in every state in which encryptedDataKey, and backupDataKey if present, opens
under the current lockKey, ChangePassword(p) sets lockKey to deriveLockKey(p); afterwards
each stored key opens under the new lockKey to the plaintext data key it opened to under
the old one; backupDataKey is present afterwards iff it was present before; and the reply
is 'S' + encoded(new edk) + encoded(new bdk). Under the laws that the derived key has the
requested length and that opening undoes sealing. -/
theorem cmdChangePassword_spec (E : Primitives) (hK : KdfLength E) (hE : OpenSeal E)
    (s : encryptionService) (lk e dk p : Bytes)
    (hlk : s.lockKey = some lk) (he : s.encryptedDataKey = some e)
    (hd : decrypt E lk e = .ret dk)
    (hb : ∀ b, s.backupDataKey = some b → ∃ dkb, decrypt E lk b = .ret dkb) :
    ∃ s1 e1, cmdChangePassword E p s = .ok () s1 ∧
      s1.lockKey = some (generateLockKey E p) ∧
      s1.encryptedDataKey = some e1 ∧
      decrypt E (generateLockKey E p) e1 = .ret dk ∧
      (s.backupDataKey = none → s1.backupDataKey = none) ∧
      (∀ b dkb, s.backupDataKey = some b → decrypt E lk b = .ret dkb →
        ∃ b1, s1.backupDataKey = some b1 ∧ decrypt E (generateLockKey E p) b1 = .ret dkb) ∧
      s1.stdout = s.stdout ++
        frame (83 :: (encodeKey s1.encryptedDataKey ++ encodeKey s1.backupDataKey)) := by
  have hk : aesNewCipher (generateLockKey E p) = none :=
    aesNewCipher_32 (generateLockKey_length E hK p)
  cases hbk : s.backupDataKey with
  | none =>
    exact ⟨_, _, cmdChangePassword_single E p s hlk he hd hbk hk, rfl, rfl,
      decrypt_envelope E hE dk hk (randBytes_length E _ _), fun _ => rfl,
      fun b dkb h => by simp at h, rfl⟩
  | some b =>
    obtain ⟨dkb, hdb⟩ := hb b hbk
    refine ⟨_, _, cmdChangePassword_pair E p s hlk he hd hbk hdb hk, rfl, rfl,
      decrypt_envelope E hE dk hk (randBytes_length E _ _), fun h => by simp at h,
      fun b1 dkb1 h1 h2 => ?_, rfl⟩
    simp only [Option.some.injEq] at h1
    subst h1
    rw [hdb] at h2
    simp only [Dec.ret.injEq] at h2
    subst h2
    exact ⟨_, rfl, decrypt_envelope E hE _ hk (randBytes_length E _ _)⟩

theorem cmdChangePassword_spec_witness :
    KdfLength (tagged 16) ∧ OpenSeal (tagged 16) ∧
    (stateAfter (tagged 16) [(8, []), (8, [])]).backupDataKey =
      some (freshKey (tagged 16) (generateLockKey (tagged 16) []) 0) ∧
    ∃ s1 e1, cmdChangePassword (tagged 16) (str "new")
        (stateAfter (tagged 16) [(8, []), (8, [])]) = .ok () s1 ∧
      s1.lockKey = some (generateLockKey (tagged 16) (str "new")) ∧
      s1.encryptedDataKey = some e1 ∧
      decrypt (tagged 16) (generateLockKey (tagged 16) (str "new")) e1 =
        .ret (randBytes (tagged 16) 44 32) ∧
      ((stateAfter (tagged 16) [(8, []), (8, [])]).backupDataKey = none →
        s1.backupDataKey = none) ∧
      (∀ b dkb, (stateAfter (tagged 16) [(8, []), (8, [])]).backupDataKey = some b →
        decrypt (tagged 16) (generateLockKey (tagged 16) []) b = .ret dkb →
        ∃ b1, s1.backupDataKey = some b1 ∧
          decrypt (tagged 16) (generateLockKey (tagged 16) (str "new")) b1 = .ret dkb) ∧
      s1.stdout = (stateAfter (tagged 16) [(8, []), (8, [])]).stdout ++
        frame (83 :: (encodeKey s1.encryptedDataKey ++ encodeKey s1.backupDataKey)) :=
  ⟨tagged_kdfLength 16, tagged_openSeal 16, rfl,
    cmdChangePassword_spec (tagged 16) (tagged_kdfLength 16) (tagged_openSeal 16)
      (stateAfter (tagged 16) [(8, []), (8, [])]) (generateLockKey (tagged 16) [])
      (freshKey (tagged 16) (generateLockKey (tagged 16) []) 44) (randBytes (tagged 16) 44 32)
      (str "new") rfl rfl rfl
      (fun b h => by
        have hb : some (freshKey (tagged 16) (generateLockKey (tagged 16) []) 0) = some b := h
        simp only [Option.some.injEq] at hb
        subst hb
        exact ⟨randBytes (tagged 16) 0 32, rfl⟩)⟩

/-! ## How a handler can end -/

theorem encrypt_cases (E : Primitives) (key data : Bytes) (s : encryptionService) :
    (∃ msg, encrypt E key data s = .panic msg s) ∨
    (∃ ct, encrypt E key data s = .ok ct { s with randPos := s.randPos + 12 }) := by
  cases h : aesNewCipher key with
  | none => exact Or.inr ⟨_, encrypt_ok E data s h⟩
  | some msg => exact Or.inl ⟨msg, by simp [encrypt, aesgcmEncrypt, h]⟩

theorem createDataKey_cases (E : Primitives) (s : encryptionService) :
    (∃ msg, createDataKey E s = .panic msg { s with randPos := s.randPos + 32 }) ∨
    (∃ key, createDataKey E s = .ok key { s with randPos := s.randPos + 32 + 12 }) := by
  unfold createDataKey readRand
  rcases encrypt_cases E (sl s.lockKey) (randBytes E s.randPos keySize)
    { s with randPos := s.randPos + keySize } with ⟨msg, h⟩ | ⟨ct, h⟩
  · exact Or.inl ⟨msg, h⟩
  · exact Or.inr ⟨ct, h⟩

theorem handled_panic {s s1 : encryptionService} (msg : String) (h : s1.stdout = s.stdout) :
    Handled s (.panic msg s1) :=
  Or.inl ⟨msg, s1, rfl, h⟩

theorem handled_error (s : encryptionService) (msg : String) :
    Handled s (.ok () (replyError msg s)) :=
  Or.inr (Or.inl ⟨msg, rfl⟩)

theorem handled_success {s s1 : encryptionService} (body : Bytes)
    (h : s1.stdout = s.stdout ++ frame (83 :: body)) : Handled s (.ok () s1) :=
  Or.inr (Or.inr ⟨body, s1, rfl, h⟩)

theorem cmdGetState_handled (E : Primitives) (s : encryptionService) :
    Handled s (cmdGetState E s) := by
  unfold cmdGetState
  split
  · exact handled_success (str "default") rfl
  · exact handled_success (str "user_configured") rfl

theorem cmdSetPassword_handled (E : Primitives) (data : Bytes) (s : encryptionService) :
    Handled s (cmdSetPassword E data s) :=
  handled_success [] rfl

theorem cmdGetDataKey_handled (s : encryptionService) : Handled s (cmdGetDataKey s) :=
  handled_success _ rfl

theorem cmdCreateDataKey_handled (E : Primitives) (s : encryptionService) :
    Handled s (cmdCreateDataKey E s) := by
  unfold cmdCreateDataKey
  split
  · exact handled_panic _ rfl
  · rcases createDataKey_cases E s with ⟨msg, h⟩ | ⟨key, h⟩
    · rw [h]; exact handled_panic _ rfl
    · rw [h]; exact handled_success _ rfl

theorem cmdSetDataKey_handled (E : Primitives) (data : Bytes) (s : encryptionService) :
    Handled s (cmdSetDataKey E data s) := by
  unfold cmdSetDataKey
  split
  · exact handled_panic _ rfl
  · split
    · exact handled_panic _ rfl
    · split
      · exact handled_panic _ rfl
      · split
        · exact handled_panic _ rfl
        · exact handled_error s _
        · split
          · exact handled_success [] rfl
          · split
            · exact handled_panic _ rfl
            · exact handled_error s _
            · exact handled_success [] rfl

theorem cmdEncrypt_handled (E : Primitives) (data : Bytes) (s : encryptionService) :
    Handled s (cmdEncrypt E data s) := by
  unfold cmdEncrypt
  split
  · exact handled_panic _ rfl
  · split
    · exact handled_panic _ rfl
    · exact handled_error s _
    · rename_i dataKey _
      rcases encrypt_cases E dataKey data s with ⟨msg, h⟩ | ⟨ct, h⟩
      · rw [h]; exact handled_panic _ rfl
      · rw [h]; exact handled_success _ rfl

theorem cmdDecrypt_handled (E : Primitives) (data : Bytes) (s : encryptionService) :
    Handled s (cmdDecrypt E data s) := by
  unfold cmdDecrypt
  split
  · exact handled_panic _ rfl
  · split
    · exact handled_panic _ rfl
    · exact handled_success _ rfl
    · split
      · exact handled_panic _ rfl
      · exact handled_error s _
      · exact handled_success _ rfl

theorem cmdChangePassword_handled (E : Primitives) (data : Bytes) (s : encryptionService) :
    Handled s (cmdChangePassword E data s) := by
  unfold cmdChangePassword
  split
  · exact handled_panic _ rfl
  · rename_i lk _
    simp only []
    generalize (match s.backupDataKey with
      | some b => decrypt E lk b
      | none => Dec.ret []) = backup
    cases backup with
    | panic msg => exact handled_panic _ rfl
    | err msg => exact handled_error s _
    | ret backupDataKey =>
      simp only []
      cases decrypt E lk (sl s.encryptedDataKey) with
      | panic msg => exact handled_panic _ rfl
      | err msg => exact handled_error s _
      | ret dataKey =>
        simp only []
        rcases encrypt_cases E (sl (some (generateLockKey E data))) dataKey
          { s with lockKey := some (generateLockKey E data) } with ⟨msg, h⟩ | ⟨edk, h⟩
        · rw [h]; exact handled_panic _ rfl
        · rw [h]
          simp only []
          cases hb : s.backupDataKey with
          | none => exact handled_success _ rfl
          | some b =>
            simp only []
            rcases encrypt_cases E (sl (some (generateLockKey E data))) backupDataKey
              { s with lockKey := some (generateLockKey E data), randPos := s.randPos + 12,
                       encryptedDataKey := some edk } with ⟨msg, h2⟩ | ⟨bdk, h2⟩
            · simp only [hb] at h2
              rw [h2]; exact handled_panic _ rfl
            · simp only [hb] at h2
              rw [h2]; exact handled_success _ rfl

theorem cmdRotateDataKey_handled (E : Primitives) (s : encryptionService) :
    Handled s (cmdRotateDataKey E s) := by
  unfold cmdRotateDataKey
  split
  · exact handled_panic _ rfl
  · split
    · exact handled_error s _
    · rcases createDataKey_cases E { s with backupDataKey := s.encryptedDataKey }
        with ⟨msg, h⟩ | ⟨key, h⟩
      · simp only [h]; exact handled_panic _ rfl
      · simp only [h]; exact handled_success _ rfl

theorem cmdClearBackupKey_handled (keys : Bytes) (s : encryptionService) :
    Handled s (cmdClearBackupKey keys s) := by
  unfold cmdClearBackupKey
  split
  · exact handled_error s _
  · split
    · exact handled_success [] rfl
    · exact handled_success _ rfl

theorem dispatch_handled (E : Primitives) (command : Nat) (data : Bytes)
    (s : encryptionService) : Handled s (dispatch E command data s) := by
  unfold dispatch
  split
  · exact cmdSetPassword_handled E data s
  · exact cmdCreateDataKey_handled E s
  · exact cmdSetDataKey_handled E data s
  · exact cmdGetDataKey_handled s
  · exact cmdEncrypt_handled E data s
  · exact cmdDecrypt_handled E data s
  · exact cmdChangePassword_handled E data s
  · exact cmdRotateDataKey_handled E s
  · exact cmdClearBackupKey_handled data s
  · exact cmdGetState_handled E s
  · exact handled_panic _ rfl

/-! ## Replies -/

/-- C5: error replies are atomic. For every state, command byte and payload, if the
handler returns having written one reply frame whose body starts with 'E', then lockKey,
encryptedDataKey and backupDataKey are the same after the command as before. -/
theorem error_reply_keeps_keys (E : Primitives) (command : Nat) (data : Bytes)
    (s s1 : encryptionService) (body : Bytes)
    (h : dispatch E command data s = .ok () s1)
    (hout : s1.stdout = s.stdout ++ frame body) (hE : body.head? = some 69) :
    s1.lockKey = s.lockKey ∧ s1.encryptedDataKey = s.encryptedDataKey ∧
      s1.backupDataKey = s.backupDataKey := by
  rcases dispatch_handled E command data s with ⟨msg, s2, h2, _⟩ | ⟨msg, h2⟩ | ⟨b, s2, h2, ho⟩
  · rw [h2] at h; simp at h
  · rw [h2] at h
    simp only [Res.ok.injEq, true_and] at h
    subst h
    exact ⟨rfl, rfl, rfl⟩
  · rw [h2] at h
    simp only [Res.ok.injEq, true_and] at h
    subst h
    rw [ho] at hout
    have hb := stdout_frame_inj hout
    rw [← hb] at hE
    simp at hE

/-- For every state, command byte and payload, handling the command never exits the
process and either panics having written nothing to standard output, or returns having
written exactly one reply frame, whose body begins with 'S' or 'E'. -/
theorem dispatch_reply_or_panic (E : Primitives) (command : Nat) (data : Bytes)
    (s : encryptionService) :
    match dispatch E command data s with
    | .ok _ s1 => ∃ body, s1.stdout = s.stdout ++ frame body ∧
        (body.head? = some 83 ∨ body.head? = some 69)
    | .panic _ s1 => s1.stdout = s.stdout
    | .exit _ _ => False := by
  rcases dispatch_handled E command data s with ⟨msg, s2, h2, ho⟩ | ⟨msg, h2⟩ | ⟨b, s2, h2, ho⟩
  · rw [h2]; exact ho
  · rw [h2]
    exact ⟨69 :: str msg, by rw [replyError_eq], Or.inr rfl⟩
  · rw [h2]
    exact ⟨83 :: b, ho, Or.inl rfl⟩

theorem error_reply_keeps_keys_witness :
    dispatch (tagged 16) 3 [1, 5, 0] (stateAfter (tagged 16) [(8, [])]) =
      .ok () (replyError "unsupported cipher" (stateAfter (tagged 16) [(8, [])])) ∧
    (replyError "unsupported cipher" (stateAfter (tagged 16) [(8, [])])).stdout =
      (stateAfter (tagged 16) [(8, [])]).stdout ++ frame (69 :: str "unsupported cipher") ∧
    (replyError "unsupported cipher" (stateAfter (tagged 16) [(8, [])])).lockKey =
      (stateAfter (tagged 16) [(8, [])]).lockKey ∧
    (replyError "unsupported cipher" (stateAfter (tagged 16) [(8, [])])).encryptedDataKey =
      (stateAfter (tagged 16) [(8, [])]).encryptedDataKey ∧
    (replyError "unsupported cipher" (stateAfter (tagged 16) [(8, [])])).backupDataKey =
      (stateAfter (tagged 16) [(8, [])]).backupDataKey :=
  ⟨rfl, rfl, error_reply_keeps_keys (tagged 16) 3 [1, 5, 0] (stateAfter (tagged 16) [(8, [])])
    (replyError "unsupported cipher" (stateAfter (tagged 16) [(8, [])]))
    (69 :: str "unsupported cipher") rfl rfl rfl⟩

/-- C6 fails as stated. After a SetDataKey from startup that loads a key sealed over the
3-byte plaintext 1 2 3, which the handler accepts with the reply 'S', Encrypt panics in
`aes.NewCipher` ("invalid key size 3") and writes no reply, and so does Decrypt of a text
with first byte 0x00; after a RotateDataKey in that state, which makes the loaded key the
backup key, Decrypt of such a text that the new data key does not open panics in the same
way. And from startup SetDataKey with an empty payload panics in `readField`, again with
nothing written. -/
theorem command_without_reply :
    (∃ s, run (tagged 16) (startup (tagged 16) [])
        [(3, combineDataKeys (some (envelope (tagged 16) (generateLockKey (tagged 16) [])
          (List.replicate 12 0) [1, 2, 3])) none)] = .ok () s ∧
      s.stdout = frame [83] ∧
      dispatch (tagged 16) 5 (str "hello") s = .panic "crypto/aes: invalid key size 3" s ∧
      dispatch (tagged 16) 6 [0] s = .panic "crypto/aes: invalid key size 3" s) ∧
    (∃ s, run (tagged 16) (startup (tagged 16) [])
        [(3, combineDataKeys (some (envelope (tagged 16) (generateLockKey (tagged 16) [])
          (List.replicate 12 0) [1, 2, 3])) none), (8, [])] = .ok () s ∧
      s.backupDataKey = some (envelope (tagged 16) (generateLockKey (tagged 16) [])
        (List.replicate 12 0) [1, 2, 3]) ∧
      dispatch (tagged 16) 6 [0] s = .panic "crypto/aes: invalid key size 3" s) ∧
    dispatch (tagged 16) 3 [] (startup (tagged 16) []) =
      .panic "runtime error: index out of range [0] with length 0" (startup (tagged 16) []) ∧
    (startup (tagged 16) []).stdout = [] :=
  ⟨⟨_, rfl, rfl, rfl, rfl⟩, ⟨_, rfl, rfl, rfl⟩, rfl, rfl⟩

/-! ## Commands that leave the keys as they are -/

theorem cmdCreateDataKey_keys (E : Primitives) {s s1 : encryptionService}
    (h : cmdCreateDataKey E s = .ok () s1) : keys s1 = keys s := by
  unfold cmdCreateDataKey at h
  split at h
  · simp at h
  · rcases createDataKey_cases E s with ⟨msg, h2⟩ | ⟨key, h2⟩
    · rw [h2] at h; simp at h
    · rw [h2] at h
      simp only [Res.ok.injEq, true_and] at h
      subst h; rfl

theorem cmdGetDataKey_keys {s s1 : encryptionService}
    (h : cmdGetDataKey s = .ok () s1) : keys s1 = keys s := by
  simp only [cmdGetDataKey, Res.ok.injEq, true_and] at h
  subst h; rfl

theorem cmdGetState_keys (E : Primitives) {s s1 : encryptionService}
    (h : cmdGetState E s = .ok () s1) : keys s1 = keys s := by
  unfold cmdGetState at h
  split at h <;>
  · simp only [Res.ok.injEq, true_and] at h
    subst h; rfl

theorem cmdEncrypt_keys (E : Primitives) (data : Bytes) {s s1 : encryptionService}
    (h : cmdEncrypt E data s = .ok () s1) : keys s1 = keys s := by
  unfold cmdEncrypt at h
  split at h
  · simp at h
  · split at h
    · simp at h
    · simp only [Res.ok.injEq, true_and] at h
      subst h; rfl
    · rename_i dataKey _
      rcases encrypt_cases E dataKey data s with ⟨msg, h2⟩ | ⟨ct, h2⟩
      · rw [h2] at h; simp at h
      · rw [h2] at h
        simp only [Res.ok.injEq, true_and] at h
        subst h; rfl

theorem cmdDecrypt_keys (E : Primitives) (data : Bytes) {s s1 : encryptionService}
    (h : cmdDecrypt E data s = .ok () s1) : keys s1 = keys s := by
  unfold cmdDecrypt at h
  split at h
  · simp at h
  · split at h
    · simp at h
    · simp only [Res.ok.injEq, true_and] at h
      subst h; rfl
    · split at h
      · simp at h
      · simp only [Res.ok.injEq, true_and] at h
        subst h; rfl
      · simp only [Res.ok.injEq, true_and] at h
        subst h; rfl

/-- A key sealed over a 3-byte plaintext is accepted by SetDataKey, whatever the
primitives are, and is then the stored data key. -/
theorem setDataKey_short_key (E : Primitives) (hK : KdfLength E) (hE : OpenSeal E)
    (hL : SealLength E) (input nonce : Bytes) (hn : nonce.length = 12) :
    run E (startup E input)
      [(3, combineDataKeys
        (some (envelope E (generateLockKey E emptyString) nonce [1, 2, 3])) none)] =
      .ok () { startup E input with
        encryptedDataKey := some (envelope E (generateLockKey E emptyString) nonce [1, 2, 3])
        stdout := frame [83] } ∧
    decrypt E (generateLockKey E emptyString)
      (envelope E (generateLockKey E emptyString) nonce [1, 2, 3]) = .ret [1, 2, 3] := by
  have hk : aesNewCipher (generateLockKey E emptyString) = none :=
    aesNewCipher_32 (generateLockKey_length E hK _)
  have hd := decrypt_envelope E hE [1, 2, 3] hk hn
  have hlen : (envelope E (generateLockKey E emptyString) nonce [1, 2, 3]).length ≤ 254 := by
    simp [envelope, hn, hL _ _ _]
  refine ⟨?_, hd⟩
  have h3 := cmdSetDataKey_single E (startup E input) rfl hlen hd
  simp only [run, dispatch, h3]
  rfl

/-- With a stored key that opens to 3 bytes, Encrypt panics in `aes.NewCipher` and the
state, standard output included, is as before; whatever the primitives are. -/
theorem cmdEncrypt_short_key (E : Primitives) (data : Bytes) (s : encryptionService)
    {lk e : Bytes} (hlk : s.lockKey = some lk) (he : s.encryptedDataKey = some e)
    (hd : decrypt E lk e = .ret [1, 2, 3]) :
    cmdEncrypt E data s = .panic "crypto/aes: invalid key size 3" s := by
  have hk : aesNewCipher [1, 2, 3] = some "crypto/aes: invalid key size 3" := by decide
  simp [cmdEncrypt, hlk, he, sl, hd, encrypt, aesgcmEncrypt, hk]

/-- After a RotateDataKey from startup, a SetPassword whose derived key differs from the
startup lock key leaves a stored key that no longer opens; whatever the primitives are,
as long as opening under another key fails. -/
theorem setPassword_after_rotate (E : Primitives) (hK : KdfLength E) (hW : WrongKeyFails E)
    (input p : Bytes) (hne : generateLockKey E emptyString ≠ generateLockKey E p) :
    ∃ s, run E (startup E input) [(8, []), (1, p)] = .ok () s ∧
      s.lockKey = some (generateLockKey E p) ∧
      s.encryptedDataKey = some (freshKey E (generateLockKey E emptyString) 0) ∧
      decrypt E (generateLockKey E p) (freshKey E (generateLockKey E emptyString) 0) =
        .err "cipher: message authentication failed" := by
  have hl0 := generateLockKey_length E hK emptyString
  have hrot : dispatch E 8 [] (startup E input) = _ :=
    cmdRotateDataKey_ok E (startup E input) rfl (aesNewCipher_32 hl0) rfl
  have hrun := run_cons_ok E [(1, p)] hrot
  exact ⟨_, hrun, rfl, rfl,
    decrypt_envelope_wrong E hW _ hl0 (generateLockKey_length E hK p) hne
      (randBytes_length E _ _)⟩

/-- C4 fails as stated, in two ways. A SetDataKey from startup that loads a key sealed
over the 3-byte plaintext 1 2 3 is accepted, and the stored key then opens to those 3
bytes, not to 32. And a SetPassword issued after a RotateDataKey replaces the lock key
and leaves the stored key as it is, so that decrypt(lockKey, encryptedDataKey) fails. -/
theorem stored_key_not_32_or_not_opening :
    (∃ s e, run (tagged 16) (startup (tagged 16) [])
        [(3, combineDataKeys (some (envelope (tagged 16) (generateLockKey (tagged 16) [])
          (List.replicate 12 0) [1, 2, 3])) none)] = .ok () s ∧
      s.lockKey = some (generateLockKey (tagged 16) []) ∧
      s.encryptedDataKey = some e ∧
      decrypt (tagged 16) (generateLockKey (tagged 16) []) e = .ret [1, 2, 3]) ∧
    (∃ s e, run (tagged 32) (startup (tagged 32) []) [(8, []), (1, str "hunter2")] = .ok () s ∧
      s.lockKey = some (generateLockKey (tagged 32) (str "hunter2")) ∧
      s.encryptedDataKey = some e ∧
      decrypt (tagged 32) (generateLockKey (tagged 32) (str "hunter2")) e =
        .err "cipher: message authentication failed") :=
  ⟨⟨_, _, rfl, rfl, rfl, rfl⟩, ⟨_, _, rfl, rfl, rfl, rfl⟩⟩

/-! ## ClearBackupKey -/

/-- C11: for every state and payload, ClearBackupKey replies 'E' + "Key mismatch" exactly
when the payload differs from combineDataKeys(encryptedDataKey, backupDataKey), and then
leaves the state unchanged; an empty payload is always a mismatch, since the pair is never
empty. Otherwise backupDataKey is absent afterwards, encryptedDataKey and lockKey are
unchanged, and the reply is 'S' alone when no backup was held, or 'S' + encoded(edk) +
0x00 when one was dropped. -/
theorem cmdClearBackupKey_spec (s : encryptionService) (payload : Bytes) :
    ((∃ s1, cmdClearBackupKey payload s = .ok () s1 ∧
        s1.stdout = s.stdout ++ frame (69 :: str "Key mismatch")) ↔
      payload ≠ combineDataKeys s.encryptedDataKey s.backupDataKey) ∧
    (payload ≠ combineDataKeys s.encryptedDataKey s.backupDataKey →
      cmdClearBackupKey payload s =
        .ok () { s with stdout := (s.stdout ++ frame (69 :: str "Key mismatch")) }) ∧
    (payload = combineDataKeys s.encryptedDataKey s.backupDataKey →
      s.backupDataKey = none →
      cmdClearBackupKey payload s = .ok () { s with stdout := (s.stdout ++ frame [83]) }) ∧
    (payload = combineDataKeys s.encryptedDataKey s.backupDataKey →
      ∀ b, s.backupDataKey = some b →
      cmdClearBackupKey payload s =
        .ok () { s with
          backupDataKey := none
          stdout := s.stdout ++ frame (83 :: (encodeKey s.encryptedDataKey ++ [0])) }) ∧
    combineDataKeys s.encryptedDataKey s.backupDataKey ≠ [] := by
  have hne : ∀ h : payload ≠ combineDataKeys s.encryptedDataKey s.backupDataKey,
      cmdClearBackupKey payload s =
        .ok () { s with stdout := (s.stdout ++ frame (69 :: str "Key mismatch")) } := by
    intro h
    rw [← replyError_eq]
    simp [cmdClearBackupKey, Ne.symm h]
  have hnone : payload = combineDataKeys s.encryptedDataKey s.backupDataKey →
      s.backupDataKey = none →
      cmdClearBackupKey payload s = .ok () { s with stdout := (s.stdout ++ frame [83]) } := by
    intro h hb
    simp [cmdClearBackupKey, h, hb, replySuccess, doReply]
  have hsome : payload = combineDataKeys s.encryptedDataKey s.backupDataKey →
      ∀ b, s.backupDataKey = some b →
      cmdClearBackupKey payload s =
        .ok () { s with
          backupDataKey := none
          stdout := s.stdout ++ frame (83 :: (encodeKey s.encryptedDataKey ++ [0])) } := by
    intro h b hb
    simp [cmdClearBackupKey, h, hb, replySuccessWithDataKey, replySuccessWithData, doReply,
      combineDataKeys, encodeKey]
  refine ⟨⟨?_, fun h => ⟨_, hne h, rfl⟩⟩, hne, hnone, hsome, ?_⟩
  · rintro ⟨s1, h1, hout⟩
    intro heq
    cases hb : s.backupDataKey with
    | none =>
      rw [hnone heq hb] at h1
      simp only [Res.ok.injEq, true_and] at h1
      subst h1
      have h2 := stdout_frame_inj hout
      simp at h2
    | some b =>
      rw [hsome heq b hb] at h1
      simp only [Res.ok.injEq, true_and] at h1
      subst h1
      have h2 := stdout_frame_inj hout
      simp at h2
  · cases s.encryptedDataKey <;> simp [combineDataKeys, encodeKey]

theorem cmdClearBackupKey_spec_witness :
    (stateAfter (tagged 16) [(8, []), (8, [])]).backupDataKey =
      some (freshKey (tagged 16) (generateLockKey (tagged 16) []) 0) ∧
    cmdClearBackupKey [] (stateAfter (tagged 16) [(8, []), (8, [])]) =
      .ok () { stateAfter (tagged 16) [(8, []), (8, [])] with
        stdout := ((stateAfter (tagged 16) [(8, []), (8, [])]).stdout ++
          frame (69 :: str "Key mismatch")) } :=
  ⟨rfl, (cmdClearBackupKey_spec (stateAfter (tagged 16) [(8, []), (8, [])]) []).2.1
    (Ne.symm (cmdClearBackupKey_spec (stateAfter (tagged 16) [(8, []), (8, [])]) []).2.2.2.2)⟩

/-! ## Texts that decrypt rejects before opening -/

/-- C13: for every 32-byte key K and every text C, decrypt(K, C) fails with "unsupported
cipher" when C is non-empty and its first byte is not 0x00, whatever its length, and
fails with "ciphertext is too short" when C is empty, or starts with 0x00 and has fewer
than 12 bytes after the version byte. In these cases the AES-GCM open is not attempted:
the result is the same whatever function stands for it. -/
theorem decrypt_rejects (E : Primitives) (K C : Bytes) (hK : K.length = 32) :
    (∀ v rest, C = v :: rest → v ≠ 0 → decrypt E K C = .err "unsupported cipher") ∧
    (C = [] → decrypt E K C = .err "ciphertext is too short") ∧
    (∀ rest, C = 0 :: rest → rest.length < 12 →
      decrypt E K C = .err "ciphertext is too short") ∧
    (∀ g : Bytes → Bytes → Bytes → Option Bytes,
      (C = [] ∨ ∃ v rest, C = v :: rest ∧ (v ≠ 0 ∨ rest.length < 12)) →
      decrypt { E with gcmOpen := g } K C = decrypt E K C) := by
  have hk := aesNewCipher_32 hK
  refine ⟨?_, ?_, ?_, ?_⟩
  · intro v rest hC hv
    subst hC
    simp [decrypt, hv]
  · intro hC
    subst hC
    rfl
  · intro rest hC hlen
    subst hC
    simp [decrypt, aesgcmDecrypt, hk, nonceSize, hlen]
  · intro g h
    rcases h with hC | ⟨v, rest, hC, hv | hlen⟩
    · subst hC; rfl
    · subst hC; simp [decrypt, hv]
    · subst hC
      by_cases hv : v = 0
      · simp [decrypt, hv, aesgcmDecrypt, hk, nonceSize, hlen]
      · simp [decrypt, hv]

theorem decrypt_rejects_witness :
    (generateLockKey (tagged 16) []).length = 32 ∧
    decrypt (tagged 16) (generateLockKey (tagged 16) []) [1, 2, 3] = .err "unsupported cipher" ∧
    decrypt (tagged 16) (generateLockKey (tagged 16) []) [0, 2, 3] =
      .err "ciphertext is too short" :=
  ⟨rfl,
    (decrypt_rejects (tagged 16) (generateLockKey (tagged 16) []) [1, 2, 3] rfl).1 1 [2, 3] rfl
      (by decide),
    (decrypt_rejects (tagged 16) (generateLockKey (tagged 16) []) [0, 2, 3] rfl).2.2.1 [2, 3] rfl
      (by decide)⟩

/-! ## GetState -/

/-- C14: for every state, GetState changes nothing but standard output and replies 'S' +
"default" if lockKey equals deriveLockKey of the empty password, and 'S' +
"user_configured" otherwise. In the startup state the reply is "default", written as the
frame 00 00 00 08 followed by the 8 bytes "Sdefault"; and after SetPassword(p) the reply
is "default" exactly when deriveLockKey(p) = deriveLockKey(""). -/
theorem cmdGetState_spec (E : Primitives) (s : encryptionService) :
    (sl s.lockKey = generateLockKey E emptyString →
      cmdGetState E s = .ok () { s with stdout := (s.stdout ++ frame (83 :: str "default")) }) ∧
    (sl s.lockKey ≠ generateLockKey E emptyString →
      cmdGetState E s =
        .ok () { s with stdout := (s.stdout ++ frame (83 :: str "user_configured")) }) ∧
    (∀ input, cmdGetState E (startup E input) =
      .ok () { startup E input with stdout := [0, 0, 0, 8] ++ str "Sdefault" }) ∧
    (∀ p s1 s2, cmdSetPassword E p s = .ok () s1 → cmdGetState E s1 = .ok () s2 →
      (s2.stdout = s1.stdout ++ frame (83 :: str "default") ↔
        generateLockKey E p = generateLockKey E emptyString)) := by
  refine ⟨?_, ?_, ?_, ?_⟩
  · intro h
    simp [cmdGetState, h, replySuccessWithData, doReply]
  · intro h
    simp [cmdGetState, h, replySuccessWithData, doReply]
  · intro input
    have h : sl (startup E input).lockKey = generateLockKey E emptyString := rfl
    simp only [cmdGetState, h, if_true]
    rfl
  · intro p s1 s2 h1 h2
    simp only [cmdSetPassword, Res.ok.injEq, true_and] at h1
    subst h1
    by_cases h : generateLockKey E p = generateLockKey E emptyString
    · have hs : sl (replySuccess { s with lockKey := some (generateLockKey E p) }).lockKey =
          generateLockKey E emptyString := h
      simp only [cmdGetState, hs, if_true, Res.ok.injEq, true_and] at h2
      subst h2
      simp [h, replySuccessWithData, doReply]
    · have hs : sl (replySuccess { s with lockKey := some (generateLockKey E p) }).lockKey ≠
          generateLockKey E emptyString := h
      simp only [cmdGetState, hs, if_false, Res.ok.injEq, true_and] at h2
      subst h2
      simp only [h, iff_false]
      intro hout
      have h3 := stdout_frame_inj hout
      simp only [List.cons.injEq, true_and] at h3
      revert h3
      decide

/-! ## Lengths of the envelope -/

theorem encrypt_length (E : Primitives) (hL : SealLength E) {key data ct : Bytes}
    {s s1 : encryptionService} (h : encrypt E key data s = .ok ct s1) :
    ct.length = data.length + 29 ∧ ct.head? = some 0 := by
  cases hk : aesNewCipher key with
  | none =>
    rw [encrypt_ok E data s hk] at h
    simp only [Res.ok.injEq] at h
    obtain ⟨h1, _⟩ := h
    subst h1
    simp [randBytes_length, hL _ _ _]
    omega
  | some msg => simp [encrypt, aesgcmEncrypt, hk] at h

/-- C15: in every state with a 32-byte lock key, the reply body of CreateDataKey is
exactly 64 bytes: 0x53, 0x3D, a 61-byte envelope, 0x00, where the envelope is the version
byte 0x00, a 12-byte nonce and the 48-byte GCM output for the 32 random key bytes. More
generally encrypt(K, P) returns a text of length len(P) + 29 whose first byte is 0x00, for
every 32-byte K. Under the law that the GCM output is 16 bytes longer than the plaintext. -/
theorem cmdCreateDataKey_layout (E : Primitives) (hL : SealLength E) (s : encryptionService)
    (lk : Bytes) (hlk : s.lockKey = some lk) (hlen : lk.length = 32) :
    (∃ nonce sealed s1, nonce.length = 12 ∧ sealed.length = 48 ∧
      sealed = E.gcmSeal lk nonce (randBytes E s.randPos 32) ∧
      cmdCreateDataKey E s = .ok () s1 ∧
      s1.stdout = s.stdout ++ frame ([83, 61] ++ (0 :: (nonce ++ sealed)) ++ [0]) ∧
      ([83, 61] ++ (0 :: (nonce ++ sealed)) ++ [0]).length = 64 ∧
      (0 :: (nonce ++ sealed)).length = 61) ∧
    (∀ (K P : Bytes) (s0 : encryptionService), K.length = 32 →
      ∃ ct s1, encrypt E K P s0 = .ok ct s1 ∧ ct.length = P.length + 29 ∧
        ct.head? = some 0) := by
  constructor
  · have h61 := freshKey_length E hL lk s.randPos
    have h48 : (E.gcmSeal lk (randBytes E (s.randPos + 32) 12)
        (randBytes E s.randPos 32)).length = 48 := by
      rw [hL, randBytes_length]
    refine ⟨randBytes E (s.randPos + 32) 12, _, _, randBytes_length E _ _, h48, rfl,
      cmdCreateDataKey_ok E s hlk (aesNewCipher_32 hlen), ?_, ?_, ?_⟩
    · have h1 : encodeKey (some (freshKey E lk s.randPos)) = 61 :: freshKey E lk s.randPos := by
        simp [encodeKey, h61]
      simp only [replySuccessWithData, doReply, combineDataKeys, h1]
      rfl
    · simp [randBytes_length, h48]
    · simp [randBytes_length, h48]
  · intro K P s0 hK
    have h := encrypt_ok E P s0 (aesNewCipher_32 hK)
    exact ⟨_, _, h, (encrypt_length E hL h).1, (encrypt_length E hL h).2⟩

theorem cmdCreateDataKey_layout_witness :
    SealLength (tagged 16) ∧
    (startup (tagged 16) []).lockKey = some (generateLockKey (tagged 16) []) ∧
    (generateLockKey (tagged 16) []).length = 32 ∧
    ∃ nonce sealed s1, nonce.length = 12 ∧ sealed.length = 48 ∧
      sealed = (tagged 16).gcmSeal (generateLockKey (tagged 16) []) nonce
        (randBytes (tagged 16) (startup (tagged 16) []).randPos 32) ∧
      cmdCreateDataKey (tagged 16) (startup (tagged 16) []) = .ok () s1 ∧
      s1.stdout = (startup (tagged 16) []).stdout ++
        frame ([83, 61] ++ (0 :: (nonce ++ sealed)) ++ [0]) ∧
      ([83, 61] ++ (0 :: (nonce ++ sealed)) ++ [0]).length = 64 ∧
      (0 :: (nonce ++ sealed)).length = 61 :=
  ⟨tagged_sealLength, rfl, rfl,
    (cmdCreateDataKey_layout (tagged 16) tagged_sealLength (startup (tagged 16) [])
      (generateLockKey (tagged 16) []) rfl rfl).1⟩

/-! ## Reading a command -/

theorem be32_decode (n : Nat) (h : n < 2 ^ 32) :
    (n / 2 ^ 24 % 256 % 256) * 2 ^ 24 + (n / 2 ^ 16 % 256 % 256) * 2 ^ 16 +
      (n / 2 ^ 8 % 256 % 256) * 2 ^ 8 + n % 256 % 256 = n := by
  omega

/-- C16: for every command byte c and payload p with 1 + len(p) < 2^32, readCommand on
an input that begins with the 4-byte big-endian encoding of 1 + len(p), then c, then p,
returns c with p (an absent payload when p is empty) and consumes exactly those
5 + len(p) bytes: what follows them is the unread input afterwards, and nothing else of
the state changes. -/
theorem readCommand_frame (s : encryptionService) (c : Nat) (p rest : Bytes)
    (hlen : 1 + p.length < 2 ^ 32)
    (hin : s.reader = be32 (1 + p.length) ++ c :: (p ++ rest)) :
    readCommand s = .ok (c, if p = [] then none else some p) { s with reader := rest } ∧
    (be32 (1 + p.length) ++ c :: p).length = 5 + p.length := by
  constructor
  · have hdec := be32_decode (1 + p.length) hlen
    unfold readCommand
    rw [hin]
    simp only [be32, List.cons_append, List.nil_append, hdec]
    cases p with
    | nil => simp
    | cons x xs =>
      have h1 : ¬ (1 + (x :: xs).length < 1) := by omega
      have h2 : ¬ (1 + (x :: xs).length = 1) := by simp
      simp [h1, h2]
  · simp [be32]
    omega

theorem readCommand_frame_witness :
    1 + (str "hunter2").length < 2 ^ 32 ∧
    readCommand (startup (tagged 16) ([0, 0, 0, 8, 1] ++ str "hunter2" ++ [0, 0, 0, 1, 10])) =
      .ok (1, some (str "hunter2")) (startup (tagged 16) [0, 0, 0, 1, 10]) :=
  ⟨by decide,
    (readCommand_frame (startup (tagged 16) ([0, 0, 0, 8, 1] ++ str "hunter2" ++ [0, 0, 0, 1, 10]))
      1 (str "hunter2") [0, 0, 0, 1, 10] (by decide) (by decide)).1⟩

/-! ## Protocol violations -/

theorem dispatch_unknown (E : Primitives) (c : Nat) (d : Bytes) (s : encryptionService)
    (h : ¬ (1 ≤ c ∧ c ≤ 10)) :
    dispatch E c d s = .panic ("Unknown command " ++ toString c) s := by
  unfold dispatch
  split <;> first | (exfalso; omega) | rfl

/-- C17: protocol violations are fatal. For every state, processCommand panics, with
nothing written to standard output and the key state unchanged, when the size word of the
frame is zero, and when the command byte of the frame is not one of 1..10; and no command
byte outside 1..10 reaches a handler: the switch panics on it. -/
theorem processCommand_fatal (E : Primitives) (s : encryptionService) :
    (∀ b0 b1 b2 b3 rest, s.reader = b0 :: b1 :: b2 :: b3 :: rest →
      (b0 % 256) * 2 ^ 24 + (b1 % 256) * 2 ^ 16 + (b2 % 256) * 2 ^ 8 + b3 % 256 = 0 →
      processCommand E s = .panic "Command is too short" { s with reader := rest }) ∧
    (∀ b0 b1 b2 b3 c rest, s.reader = b0 :: b1 :: b2 :: b3 :: c :: rest →
      ¬ (1 ≤ c ∧ c ≤ 10) →
      ∃ msg s1, processCommand E s = .panic msg s1 ∧ s1.stdout = s.stdout ∧
        keys s1 = keys s) ∧
    (∀ c d s0, ¬ (1 ≤ c ∧ c ≤ 10) →
      dispatch E c d s0 = .panic ("Unknown command " ++ toString c) s0) := by
  refine ⟨?_, ?_, fun c d s0 h => dispatch_unknown E c d s0 h⟩
  · intro b0 b1 b2 b3 rest hin hz
    unfold processCommand readCommand
    rw [hin]
    simp only [hz]
    rfl
  · intro b0 b1 b2 b3 c rest hin hc
    unfold processCommand readCommand
    rw [hin]
    simp only []
    split_ifs
    · exact ⟨_, _, rfl, rfl, rfl⟩
    · exact ⟨_, _, dispatch_unknown E c _ _ hc, rfl, rfl⟩
    · exact ⟨_, _, rfl, rfl, rfl⟩
    · exact ⟨_, _, rfl, rfl, rfl⟩
    · exact ⟨_, _, dispatch_unknown E c _ _ hc, rfl, rfl⟩

theorem processCommand_fatal_witness :
    processCommand (tagged 16) (startup (tagged 16) [0, 0, 0, 0, 2]) =
      .panic "Command is too short" (startup (tagged 16) [2]) ∧
    dispatch (tagged 16) 11 [] (startup (tagged 16) []) =
      .panic "Unknown command 11" (startup (tagged 16) []) :=
  ⟨(processCommand_fatal (tagged 16) (startup (tagged 16) [0, 0, 0, 0, 2])).1 0 0 0 0 [2]
    rfl rfl,
    (processCommand_fatal (tagged 16) (startup (tagged 16) [])).2.2 11 []
      (startup (tagged 16) []) (by decide)⟩

/-! ## SetDataKey, then GetDataKey -/

theorem readField_encodeKey_255 (k rest : Bytes) (h : k.length = 255) :
    readField (encodeKey (some k) ++ rest) = none := by
  simp [readField, encodeKey, h]

/-- C12: for every state and every pair edk, bdk of keys that the one-byte length prefix
can describe (at most 255 bytes each, bdk possibly absent), if SetDataKey with payload
encoded(edk) || encoded(bdk) replies 'S', then the GetDataKey that follows replies exactly
'S' + encoded(edk) + encoded(bdk), and changes nothing but standard output. -/
theorem setDataKey_then_getDataKey (E : Primitives) (s s1 : encryptionService) (edk : Bytes)
    (bdk : Option Bytes) (body : Bytes)
    (h1 : edk.length ≤ 255) (h2 : (sl bdk).length ≤ 255)
    (hset : cmdSetDataKey E (combineDataKeys (some edk) bdk) s = .ok () s1)
    (hS : s1.stdout = s.stdout ++ frame (83 :: body)) :
    cmdGetDataKey s1 =
      .ok () { s1 with stdout := (s1.stdout ++ frame (83 :: combineDataKeys (some edk) bdk)) } := by
  unfold cmdSetDataKey at hset
  cases hlk : s.lockKey with
  | none => rw [hlk] at hset; simp at hset
  | some lk =>
    rw [hlk] at hset
    simp only [] at hset
    by_cases he255 : edk.length = 255
    · rw [combineDataKeys, readField_encodeKey_255 edk _ he255] at hset
      simp at hset
    · rw [combineDataKeys, readField_encodeKey_some edk _ (by omega)] at hset
      simp only [] at hset
      -- the second field
      have hr2 : readField (encodeKey bdk) = none ∨
          readField (encodeKey bdk) = some (sl bdk, []) := by
        cases bdk with
        | none => right; simpa [sl] using readField_encodeKey_none []
        | some b =>
          by_cases hb255 : b.length = 255
          · left; simpa using readField_encodeKey_255 b [] hb255
          · right
            have hb : b.length ≤ 254 := by
              have : b.length ≤ 255 := by simpa [sl] using h2
              omega
            simpa [sl] using readField_encodeKey_some b [] hb
      rcases hr2 with hr2 | hr2
      · rw [hr2] at hset; simp at hset
      · rw [hr2] at hset
        simp only [] at hset
        cases hd : decrypt E lk edk with
        | panic msg => rw [hd] at hset; simp at hset
        | err msg =>
          rw [hd] at hset
          simp only [Res.ok.injEq, true_and] at hset
          subst hset
          rw [replyError_eq] at hS
          have h3 := stdout_frame_inj hS
          simp at h3
        | ret dk =>
          rw [hd] at hset
          simp only [] at hset
          split at hset
          · rename_i hlen0
            simp only [Res.ok.injEq, true_and] at hset
            subst hset
            have hb : encodeKey bdk = [0] := by
              cases bdk with
              | none => rfl
              | some b =>
                have : b = [] := by simpa [sl] using hlen0
                subst this; rfl
            have hn : encodeKey none = [0] := rfl
            simp [cmdGetDataKey, replySuccessWithDataKey, replySuccessWithData, replySuccess,
              doReply, combineDataKeys, hb, hn]
          · rename_i hlen0
            cases hdb : decrypt E lk (sl bdk) with
            | panic msg => rw [hdb] at hset; simp at hset
            | err msg =>
              rw [hdb] at hset
              simp only [Res.ok.injEq, true_and] at hset
              subst hset
              rw [replyError_eq] at hS
              have h3 := stdout_frame_inj hS
              simp at h3
            | ret dkb =>
              rw [hdb] at hset
              simp only [Res.ok.injEq, true_and] at hset
              subst hset
              have hb : encodeKey (some (sl bdk)) = encodeKey bdk := by
                cases bdk with
                | none => simp [sl] at hlen0
                | some b => rfl
              simp [cmdGetDataKey, replySuccessWithDataKey, replySuccessWithData, replySuccess,
                doReply, combineDataKeys, hb]

theorem setDataKey_then_getDataKey_witness :
    (freshKey (tagged 16) (generateLockKey (tagged 16) []) 0).length ≤ 255 ∧
    cmdSetDataKey (tagged 16)
      (combineDataKeys (some (freshKey (tagged 16) (generateLockKey (tagged 16) []) 0))
        (some (freshKey (tagged 16) (generateLockKey (tagged 16) []) 44)))
      (startup (tagged 16) []) =
      .ok () { startup (tagged 16) [] with
        encryptedDataKey := some (freshKey (tagged 16) (generateLockKey (tagged 16) []) 0)
        backupDataKey := some (freshKey (tagged 16) (generateLockKey (tagged 16) []) 44)
        stdout := frame [83] } ∧
    cmdGetDataKey { startup (tagged 16) [] with
        encryptedDataKey := some (freshKey (tagged 16) (generateLockKey (tagged 16) []) 0)
        backupDataKey := some (freshKey (tagged 16) (generateLockKey (tagged 16) []) 44)
        stdout := frame [83] } =
      .ok () { startup (tagged 16) [] with
        encryptedDataKey := some (freshKey (tagged 16) (generateLockKey (tagged 16) []) 0)
        backupDataKey := some (freshKey (tagged 16) (generateLockKey (tagged 16) []) 44)
        stdout := frame [83] ++ frame (83 ::
          combineDataKeys (some (freshKey (tagged 16) (generateLockKey (tagged 16) []) 0))
            (some (freshKey (tagged 16) (generateLockKey (tagged 16) []) 44))) } :=
  ⟨by decide, rfl,
    setDataKey_then_getDataKey (tagged 16) (startup (tagged 16) [])
      { startup (tagged 16) [] with
        encryptedDataKey := some (freshKey (tagged 16) (generateLockKey (tagged 16) []) 0)
        backupDataKey := some (freshKey (tagged 16) (generateLockKey (tagged 16) []) 44)
        stdout := frame [83] }
      (freshKey (tagged 16) (generateLockKey (tagged 16) []) 0)
      (some (freshKey (tagged 16) (generateLockKey (tagged 16) []) 44)) []
      (by decide) (by decide) rfl rfl⟩

/-! ## What a handler that returns has done to the keys -/

theorem cmdSetPassword_result (E : Primitives) (data : Bytes) {s s1 : encryptionService}
    (h : cmdSetPassword E data s = .ok () s1) :
    s1.lockKey = some (generateLockKey E data) ∧
      s1.encryptedDataKey = s.encryptedDataKey ∧ s1.backupDataKey = s.backupDataKey := by
  simp only [cmdSetPassword, Res.ok.injEq, true_and] at h
  subst h
  exact ⟨rfl, rfl, rfl⟩

theorem cmdClearBackupKey_result (data : Bytes) {s s1 : encryptionService}
    (h : cmdClearBackupKey data s = .ok () s1) :
    s1.lockKey = s.lockKey ∧ s1.encryptedDataKey = s.encryptedDataKey ∧
      (s1.backupDataKey = s.backupDataKey ∨ s1.backupDataKey = none) := by
  unfold cmdClearBackupKey at h
  split at h
  · simp only [Res.ok.injEq, true_and] at h
    subst h; exact ⟨rfl, rfl, Or.inl rfl⟩
  · split at h <;>
    · simp only [Res.ok.injEq, true_and] at h
      subst h
      first | exact ⟨rfl, rfl, Or.inl rfl⟩ | exact ⟨rfl, rfl, Or.inr rfl⟩

theorem cmdSetDataKey_result (E : Primitives) (data : Bytes) {s s1 : encryptionService}
    (h : cmdSetDataKey E data s = .ok () s1) :
    keys s1 = keys s ∨
    ∃ e rest b rest2, readField data = some (e, rest) ∧ readField rest = some (b, rest2) ∧
      s1.lockKey = s.lockKey ∧ s1.encryptedDataKey = some e ∧
      (s1.backupDataKey = none ∨ s1.backupDataKey = some b) := by
  unfold cmdSetDataKey at h
  cases hlk : s.lockKey with
  | none => rw [hlk] at h; simp at h
  | some lk =>
    rw [hlk] at h
    simp only [] at h
    cases hr1 : readField data with
    | none => rw [hr1] at h; simp at h
    | some p1 =>
      obtain ⟨e, data1⟩ := p1
      rw [hr1] at h
      simp only [] at h
      cases hr2 : readField data1 with
      | none => rw [hr2] at h; simp at h
      | some p2 =>
        obtain ⟨b, rest2⟩ := p2
        rw [hr2] at h
        simp only [] at h
        cases hd : decrypt E lk e with
        | panic msg => rw [hd] at h; simp at h
        | err msg =>
          rw [hd] at h
          simp only [Res.ok.injEq, true_and] at h
          subst h
          left
          simp [keys, replyError, doReply, hlk]
        | ret dk =>
          rw [hd] at h
          simp only [] at h
          split at h
          · simp only [Res.ok.injEq, true_and] at h
            subst h
            exact Or.inr ⟨e, data1, b, rest2, rfl, hr2, rfl, rfl, Or.inl rfl⟩
          · cases hdb : decrypt E lk b with
            | panic msg => rw [hdb] at h; simp at h
            | err msg =>
              rw [hdb] at h
              simp only [Res.ok.injEq, true_and] at h
              subst h
              left
              simp [keys, replyError, doReply, hlk]
            | ret dkb =>
              rw [hdb] at h
              simp only [Res.ok.injEq, true_and] at h
              subst h
              exact Or.inr ⟨e, data1, b, rest2, rfl, hr2, rfl, rfl, Or.inr rfl⟩

theorem cmdRotateDataKey_result (E : Primitives) {s s1 : encryptionService}
    (h : cmdRotateDataKey E s = .ok () s1) :
    keys s1 = keys s ∨
    ∃ key sa sb, createDataKey E sa = .ok key sb ∧
      s1.lockKey = s.lockKey ∧ s1.backupDataKey = s.encryptedDataKey ∧
      s1.encryptedDataKey = some key := by
  unfold cmdRotateDataKey at h
  cases hlk : s.lockKey with
  | none => rw [hlk] at h; simp at h
  | some lk =>
    rw [hlk] at h
    simp only [] at h
    cases hb : s.backupDataKey with
    | some b =>
      rw [hb] at h
      simp only [Res.ok.injEq, true_and] at h
      subst h
      left
      simp [keys, replyError, doReply, hlk, hb]
    | none =>
      rw [hb] at h
      simp only [] at h
      cases hc : createDataKey E
          { lockKey := some lk, encryptedDataKey := s.encryptedDataKey,
            backupDataKey := s.encryptedDataKey, reader := s.reader, randPos := s.randPos,
            stdout := s.stdout } with
      | panic msg s2 => rw [hc] at h; simp at h
      | exit code s2 => rw [hc] at h; simp at h
      | ok key s2 =>
        rw [hc] at h
        simp only [Res.ok.injEq, true_and] at h
        subst h
        rcases createDataKey_cases E
          { lockKey := some lk, encryptedDataKey := s.encryptedDataKey,
            backupDataKey := s.encryptedDataKey, reader := s.reader, randPos := s.randPos,
            stdout := s.stdout } with ⟨msg, h2⟩ | ⟨key2, h2⟩
        · rw [h2] at hc; simp at hc
        · have hc0 := hc
          rw [h2] at hc
          simp only [Res.ok.injEq] at hc
          obtain ⟨_, hs2⟩ := hc
          subst hs2
          exact Or.inr ⟨key, _, _, hc0, rfl, rfl, rfl⟩

theorem cmdChangePassword_result (E : Primitives) (data : Bytes) {s s1 : encryptionService}
    (h : cmdChangePassword E data s = .ok () s1) :
    keys s1 = keys s ∨
    ∃ lk dk edk1 sa sb, s.lockKey = some lk ∧
      decrypt E lk (sl s.encryptedDataKey) = .ret dk ∧
      encrypt E (generateLockKey E data) dk sa = .ok edk1 sb ∧
      s1.lockKey = some (generateLockKey E data) ∧ s1.encryptedDataKey = some edk1 ∧
      ((s.backupDataKey = none ∧ s1.backupDataKey = none) ∨
        ∃ b dkb bdk1 sc sd, s.backupDataKey = some b ∧ decrypt E lk b = .ret dkb ∧
          encrypt E (generateLockKey E data) dkb sc = .ok bdk1 sd ∧
          s1.backupDataKey = some bdk1) := by
  unfold cmdChangePassword at h
  cases hlk : s.lockKey with
  | none => rw [hlk] at h; simp at h
  | some lk =>
    rw [hlk] at h
    simp only [] at h
    cases hb : s.backupDataKey with
    | none =>
      rw [hb] at h
      simp only [] at h
      cases hd : decrypt E lk (sl s.encryptedDataKey) with
      | panic msg => rw [hd] at h; simp at h
      | err msg =>
        rw [hd] at h
        simp only [Res.ok.injEq, true_and] at h
        subst h; left; simp [keys, replyError, doReply, hlk, hb]
      | ret dk =>
        rw [hd] at h
        simp only [] at h
        rcases encrypt_cases E (sl (some (generateLockKey E data))) dk
          { lockKey := some (generateLockKey E data), encryptedDataKey := s.encryptedDataKey,
            backupDataKey := none, reader := s.reader, randPos := s.randPos,
            stdout := s.stdout } with ⟨msg, h2⟩ | ⟨edk1, h2⟩
        · rw [h2] at h; simp at h
        · rw [h2] at h
          simp only [Res.ok.injEq, true_and] at h
          subst h
          exact Or.inr ⟨lk, dk, edk1, _, _, rfl, hd, h2, rfl, rfl, Or.inl ⟨rfl, rfl⟩⟩
    | some b =>
      rw [hb] at h
      simp only [] at h
      cases hdb : decrypt E lk b with
      | panic msg => rw [hdb] at h; simp at h
      | err msg =>
        rw [hdb] at h
        simp only [Res.ok.injEq, true_and] at h
        subst h; left; simp [keys, replyError, doReply, hlk, hb]
      | ret dkb =>
        rw [hdb] at h
        simp only [] at h
        cases hd : decrypt E lk (sl s.encryptedDataKey) with
        | panic msg => rw [hd] at h; simp at h
        | err msg =>
          rw [hd] at h
          simp only [Res.ok.injEq, true_and] at h
          subst h; left; simp [keys, replyError, doReply, hlk, hb]
        | ret dk =>
          rw [hd] at h
          simp only [] at h
          rcases encrypt_cases E (sl (some (generateLockKey E data))) dk
            { lockKey := some (generateLockKey E data), encryptedDataKey := s.encryptedDataKey,
              backupDataKey := some b, reader := s.reader, randPos := s.randPos,
              stdout := s.stdout } with ⟨msg, h2⟩ | ⟨edk1, h2⟩
          · rw [h2] at h; simp at h
          · rw [h2] at h
            simp only [] at h
            rcases encrypt_cases E (sl (some (generateLockKey E data))) dkb
              { lockKey := some (generateLockKey E data), encryptedDataKey := some edk1,
                backupDataKey := some b, reader := s.reader, randPos := s.randPos + 12,
                stdout := s.stdout } with ⟨msg, h3⟩ | ⟨bdk1, h3⟩
            · rw [h3] at h; simp at h
            · rw [h3] at h
              simp only [Res.ok.injEq, true_and] at h
              subst h
              exact Or.inr ⟨lk, dk, edk1, _, _, rfl, hd, h2, rfl, rfl,
                Or.inr ⟨b, dkb, bdk1, _, _, rfl, hdb, h3, rfl⟩⟩

/-! ## The lock key is always set -/

theorem lockKey_of_keys {s s1 : encryptionService} (h : keys s1 = keys s) :
    s1.lockKey = s.lockKey ∧ s1.encryptedDataKey = s.encryptedDataKey ∧
      s1.backupDataKey = s.backupDataKey := by
  simpa [keys] using h

theorem dispatch_lockKey (E : Primitives) (command : Nat) (data : Bytes)
    {s s1 : encryptionService} (h : dispatch E command data s = .ok () s1) :
    s1.lockKey = s.lockKey ∨ s1.lockKey = some (generateLockKey E data) := by
  unfold dispatch at h
  split at h
  · exact Or.inr (cmdSetPassword_result E data h).1
  · exact Or.inl (lockKey_of_keys (cmdCreateDataKey_keys E h)).1
  · rcases cmdSetDataKey_result E data h with hk | ⟨_, _, _, _, _, _, hl, _⟩
    · exact Or.inl (lockKey_of_keys hk).1
    · exact Or.inl hl
  · exact Or.inl (lockKey_of_keys (cmdGetDataKey_keys h)).1
  · exact Or.inl (lockKey_of_keys (cmdEncrypt_keys E data h)).1
  · exact Or.inl (lockKey_of_keys (cmdDecrypt_keys E data h)).1
  · rcases cmdChangePassword_result E data h with hk | ⟨_, _, _, _, _, _, _, _, hl, _⟩
    · exact Or.inl (lockKey_of_keys hk).1
    · exact Or.inr hl
  · rcases cmdRotateDataKey_result E h with hk | ⟨_, _, _, _, hl, _⟩
    · exact Or.inl (lockKey_of_keys hk).1
    · exact Or.inl hl
  · exact Or.inl (cmdClearBackupKey_result data h).1
  · exact Or.inl (lockKey_of_keys (cmdGetState_keys E h)).1
  · simp at h

theorem reachable_lockKey (E : Primitives) {s : encryptionService} (h : Reachable E s) :
    ∃ p, s.lockKey = some (generateLockKey E p) := by
  induction h with
  | start input => exact ⟨emptyString, rfl⟩
  | step command data _ hd ih =>
    rcases dispatch_lockKey E command data hd with h1 | h1
    · obtain ⟨p, hp⟩ := ih
      exact ⟨p, h1.trans hp⟩
    · exact ⟨data, h1⟩

theorem aesNewCipher_msg {key : Bytes} {msg : String} (h : aesNewCipher key = some msg) :
    msg ≠ "Password was not set" := by
  unfold aesNewCipher at h
  split at h
  · simp at h
  · simp only [Option.some.injEq] at h
    subst h
    intro h1
    have h2 := congrArg (fun t => t.data.head?) h1
    simp at h2

theorem decrypt_panic_msg (E : Primitives) {key data : Bytes} {msg : String}
    (h : decrypt E key data = .panic msg) : msg ≠ "Password was not set" := by
  unfold decrypt at h
  split at h
  · simp at h
  · split at h
    · simp at h
    · unfold aesgcmDecrypt at h
      split at h
      · rename_i m hm
        simp only [Dec.panic.injEq] at h
        subst h
        exact aesNewCipher_msg hm
      · split at h
        · simp at h
        · split at h <;> simp at h

theorem encrypt_panic_msg (E : Primitives) {key data : Bytes} {msg : String}
    {s s1 : encryptionService} (h : encrypt E key data s = .panic msg s1) :
    msg ≠ "Password was not set" := by
  cases hk : aesNewCipher key with
  | none => rw [encrypt_ok E data s hk] at h; simp at h
  | some m =>
    simp only [encrypt, aesgcmEncrypt, hk, Res.panic.injEq] at h
    obtain ⟨h1, _⟩ := h
    subst h1
    exact aesNewCipher_msg hk

theorem createDataKey_panic_msg (E : Primitives) {msg : String} {s s1 : encryptionService}
    (h : createDataKey E s = .panic msg s1) : msg ≠ "Password was not set" := by
  unfold createDataKey readRand at h
  exact encrypt_panic_msg E h

theorem decryptWithKey_panic_msg (E : Primitives) {s : encryptionService} {key : Option Bytes}
    {data : Bytes} {msg : String} (h : decryptWithKey E s key data = .panic msg) :
    msg ≠ "Password was not set" := by
  unfold decryptWithKey at h
  split at h
  · simp at h
  · split at h
    · rename_i m hm
      simp only [Dec.panic.injEq] at h
      subst h
      exact decrypt_panic_msg E hm
    · simp at h
    · exact decrypt_panic_msg E h

theorem noGuard_ok (s : encryptionService) : NoGuardAbort (.ok () s) := by
  intro s1 h; simp at h

theorem noGuard_panic {msg : String} (s : encryptionService)
    (h : msg ≠ "Password was not set") : NoGuardAbort (.panic msg s) := by
  intro s1 h1
  simp only [Res.panic.injEq] at h1
  exact h h1.1

theorem cmdCreateDataKey_noGuard (E : Primitives) {s : encryptionService} {lk : Bytes}
    (hlk : s.lockKey = some lk) : NoGuardAbort (cmdCreateDataKey E s) := by
  unfold cmdCreateDataKey
  rw [hlk]
  simp only []
  rcases createDataKey_cases E s with ⟨msg, h⟩ | ⟨key, h⟩
  · rw [h]; exact noGuard_panic _ (createDataKey_panic_msg E h)
  · rw [h]; exact noGuard_ok _

theorem readFieldPanic_msg (b : Bytes) : readFieldPanic b ≠ "Password was not set" := by
  unfold readFieldPanic
  split
  · decide
  · simp only []
    split <;>
    · intro h1
      have h2 := congrArg (fun t => t.data.head?) h1
      simp at h2

theorem cmdSetDataKey_noGuard (E : Primitives) (data : Bytes) {s : encryptionService}
    {lk : Bytes} (hlk : s.lockKey = some lk) : NoGuardAbort (cmdSetDataKey E data s) := by
  unfold cmdSetDataKey
  rw [hlk]
  simp only []
  split
  · exact noGuard_panic _ (readFieldPanic_msg _)
  · split
    · exact noGuard_panic _ (readFieldPanic_msg _)
    · split
      · exact noGuard_panic _ (decrypt_panic_msg E (by assumption))
      · exact noGuard_ok _
      · split
        · exact noGuard_ok _
        · split
          · exact noGuard_panic _ (decrypt_panic_msg E (by assumption))
          · exact noGuard_ok _
          · exact noGuard_ok _

theorem cmdEncrypt_noGuard (E : Primitives) (data : Bytes) {s : encryptionService}
    {lk : Bytes} (hlk : s.lockKey = some lk) : NoGuardAbort (cmdEncrypt E data s) := by
  unfold cmdEncrypt
  rw [hlk]
  simp only []
  split
  · exact noGuard_panic _ (decrypt_panic_msg E (by assumption))
  · exact noGuard_ok _
  · rename_i dataKey _
    rcases encrypt_cases E dataKey data s with ⟨msg, h⟩ | ⟨ct, h⟩
    · rw [h]; exact noGuard_panic _ (encrypt_panic_msg E h)
    · rw [h]; exact noGuard_ok _

theorem cmdDecrypt_noGuard (E : Primitives) (data : Bytes) {s : encryptionService}
    {lk : Bytes} (hlk : s.lockKey = some lk) : NoGuardAbort (cmdDecrypt E data s) := by
  unfold cmdDecrypt
  rw [hlk]
  simp only []
  split
  · exact noGuard_panic _ (decryptWithKey_panic_msg E (by assumption))
  · exact noGuard_ok _
  · split
    · exact noGuard_panic _ (decryptWithKey_panic_msg E (by assumption))
    · exact noGuard_ok _
    · exact noGuard_ok _

theorem cmdRotateDataKey_noGuard (E : Primitives) {s : encryptionService} {lk : Bytes}
    (hlk : s.lockKey = some lk) : NoGuardAbort (cmdRotateDataKey E s) := by
  unfold cmdRotateDataKey
  rw [hlk]
  simp only []
  split
  · exact noGuard_ok _
  · rcases createDataKey_cases E
      { lockKey := some lk, encryptedDataKey := s.encryptedDataKey,
        backupDataKey := s.encryptedDataKey, reader := s.reader, randPos := s.randPos,
        stdout := s.stdout } with ⟨msg, h⟩ | ⟨key, h⟩
    · rw [h]; exact noGuard_panic _ (createDataKey_panic_msg E h)
    · rw [h]; exact noGuard_ok _

theorem cmdChangePassword_noGuard (E : Primitives) (data : Bytes) {s : encryptionService}
    {lk : Bytes} (hlk : s.lockKey = some lk) : NoGuardAbort (cmdChangePassword E data s) := by
  unfold cmdChangePassword
  rw [hlk]
  simp only []
  have hbk : ∀ m, (match s.backupDataKey with
      | some b => decrypt E lk b
      | none => Dec.ret []) = Dec.panic m → m ≠ "Password was not set" := by
    intro m h
    split at h
    · exact decrypt_panic_msg E h
    · simp at h
  generalize (match s.backupDataKey with
    | some b => decrypt E lk b
    | none => Dec.ret []) = backup at hbk
  cases backup with
  | panic msg => exact noGuard_panic _ (hbk msg rfl)
  | err msg => exact noGuard_ok _
  | ret backupDataKey =>
    simp only []
    cases hd : decrypt E lk (sl s.encryptedDataKey) with
    | panic msg => exact noGuard_panic _ (decrypt_panic_msg E hd)
    | err msg => exact noGuard_ok _
    | ret dataKey =>
      simp only []
      rcases encrypt_cases E (sl (some (generateLockKey E data))) dataKey
        { lockKey := some (generateLockKey E data), encryptedDataKey := s.encryptedDataKey,
          backupDataKey := s.backupDataKey, reader := s.reader, randPos := s.randPos,
          stdout := s.stdout } with ⟨msg, h⟩ | ⟨edk, h⟩
      · rw [h]; exact noGuard_panic _ (encrypt_panic_msg E h)
      · rw [h]
        simp only []
        cases hb : s.backupDataKey with
        | none => exact noGuard_ok _
        | some b =>
          simp only []
          rcases encrypt_cases E (sl (some (generateLockKey E data))) backupDataKey
            { lockKey := some (generateLockKey E data), encryptedDataKey := some edk,
              backupDataKey := s.backupDataKey, reader := s.reader, randPos := s.randPos + 12,
              stdout := s.stdout } with ⟨msg, h2⟩ | ⟨bdk, h2⟩
          · simp only [hb] at h2
            rw [h2]; exact noGuard_panic _ (encrypt_panic_msg E h2)
          · simp only [hb] at h2
            rw [h2]; exact noGuard_ok _

theorem dispatch_noGuard (E : Primitives) (command : Nat) (data : Bytes)
    {s : encryptionService} {lk : Bytes} (hlk : s.lockKey = some lk) :
    NoGuardAbort (dispatch E command data s) := by
  unfold dispatch
  split
  · exact noGuard_ok _
  · exact cmdCreateDataKey_noGuard E hlk
  · exact cmdSetDataKey_noGuard E data hlk
  · exact noGuard_ok _
  · exact cmdEncrypt_noGuard E data hlk
  · exact cmdDecrypt_noGuard E data hlk
  · exact cmdChangePassword_noGuard E data hlk
  · exact cmdRotateDataKey_noGuard E hlk
  · unfold cmdClearBackupKey
    split
    · exact noGuard_ok _
    · split <;> exact noGuard_ok _
  · unfold cmdGetState
    split <;> exact noGuard_ok _
  · apply noGuard_panic
    intro h1
    have h2 := congrArg (fun t => t.data.head?) h1
    simp at h2

/-- C19: in every state reachable from the startup state by any sequence of commands,
lockKey is present, is the key derived from some password, and is exactly 32 bytes long;
so no command handled in such a state ends in the panic "Password was not set" that
guards CreateDataKey, SetDataKey, Encrypt, Decrypt, ChangePassword and RotateDataKey.
Under the law that the derived key has the requested length. -/
theorem lockKey_always_set (E : Primitives) (hK : KdfLength E) (s : encryptionService)
    (h : Reachable E s) :
    (∃ p lk, s.lockKey = some lk ∧ lk = generateLockKey E p ∧ lk.length = 32) ∧
    (∀ command data s1, dispatch E command data s ≠ .panic "Password was not set" s1) := by
  obtain ⟨p, hp⟩ := reachable_lockKey E h
  exact ⟨⟨p, _, hp, rfl, generateLockKey_length E hK p⟩,
    fun command data => dispatch_noGuard E command data hp⟩

theorem lockKey_always_set_witness :
    KdfLength (tagged 16) ∧
    Reachable (tagged 16) (stateAfter (tagged 16) [(1, str "hunter2"), (8, [])]) ∧
    (∃ p lk, (stateAfter (tagged 16) [(1, str "hunter2"), (8, [])]).lockKey = some lk ∧
      lk = generateLockKey (tagged 16) p ∧ lk.length = 32) ∧
    (∀ command data s1,
      dispatch (tagged 16) command data (stateAfter (tagged 16) [(1, str "hunter2"), (8, [])]) ≠
        .panic "Password was not set" s1) :=
  ⟨tagged_kdfLength 16,
    Reachable.step 8 [] (Reachable.step 1 (str "hunter2") (Reachable.start []) rfl) rfl,
    lockKey_always_set (tagged 16) (tagged_kdfLength 16)
      (stateAfter (tagged 16) [(1, str "hunter2"), (8, [])])
      (Reachable.step 8 [] (Reachable.step 1 (str "hunter2") (Reachable.start []) rfl) rfl)⟩

/-! ## Stored keys fit the one-byte length -/

theorem tagged_openLength : OpenLength (tagged 16) := by
  intro key nonce data plaintext h
  simp only [tagged, tagOpen] at h
  split at h
  · rename_i hc
    simp only [Option.some.injEq] at h
    subst h
    simp only [List.length_take]
    omega
  · simp at h

theorem readField_length {b f rest : Bytes} (h : readField b = some (f, rest)) :
    f.length ≤ 254 := by
  unfold readField at h
  split at h
  · simp at h
  · rename_i size tl
    simp only [] at h
    split at h
    · simp only [Option.some.injEq, Prod.mk.injEq] at h
      obtain ⟨h1, _⟩ := h
      subst h1
      have : (size + 1) % 256 < 256 := Nat.mod_lt _ (by omega)
      simp only [List.length_drop, List.length_take]
      omega
    · simp at h

theorem decrypt_length (E : Primitives) (hO : OpenLength E) {key data plaintext : Bytes}
    (h : decrypt E key data = .ret plaintext) : plaintext.length + 29 = data.length := by
  unfold decrypt at h
  split at h
  · simp at h
  · rename_i version rest
    split at h
    · simp at h
    · unfold aesgcmDecrypt at h
      split at h
      · simp at h
      · split at h
        · simp at h
        · rename_i hlen
          split at h
          · rename_i p hp
            simp only [Dec.ret.injEq] at h
            subst h
            have h1 := hO _ _ _ _ hp
            simp only [List.length_drop, nonceSize] at h1 hlen
            simp only [List.length_cons]
            omega
          · simp at h

theorem createDataKey_length (E : Primitives) (hL : SealLength E) {key : Bytes}
    {s s1 : encryptionService} (h : createDataKey E s = .ok key s1) : key.length = 61 := by
  unfold createDataKey readRand at h
  have h1 := (encrypt_length E hL h).1
  simpa [randBytes_length, keySize] using h1

theorem keyLen_of_eq {s s1 : encryptionService}
    (h1 : s1.encryptedDataKey = s.encryptedDataKey) (h2 : s1.backupDataKey = s.backupDataKey)
    (h : KeyLen s) : KeyLen s1 := by
  unfold KeyLen
  rw [h1, h2]
  exact h

theorem dispatch_keyLen (E : Primitives) (hL : SealLength E) (hO : OpenLength E)
    (command : Nat) (data : Bytes) {s s1 : encryptionService} (hS : KeyLen s)
    (h : dispatch E command data s = .ok () s1) : KeyLen s1 := by
  have hkeys : keys s1 = keys s → KeyLen s1 := fun hk =>
    keyLen_of_eq (lockKey_of_keys hk).2.1 (lockKey_of_keys hk).2.2 hS
  unfold dispatch at h
  split at h
  · exact keyLen_of_eq (cmdSetPassword_result E data h).2.1 (cmdSetPassword_result E data h).2.2 hS
  · exact hkeys (cmdCreateDataKey_keys E h)
  · rcases cmdSetDataKey_result E data h with hk | ⟨e, rest, b, rest2, hr1, hr2, _, he, hb⟩
    · exact hkeys hk
    · refine ⟨fun e1 he1 => ?_, fun b1 hb1 => ?_⟩
      · rw [he] at he1
        simp only [Option.some.injEq] at he1
        subst he1
        have := readField_length hr1
        omega
      · rcases hb with hb | hb
        · rw [hb] at hb1; simp at hb1
        · rw [hb] at hb1
          simp only [Option.some.injEq] at hb1
          subst hb1
          have := readField_length hr2
          omega
  · exact hkeys (cmdGetDataKey_keys h)
  · exact hkeys (cmdEncrypt_keys E data h)
  · exact hkeys (cmdDecrypt_keys E data h)
  · rcases cmdChangePassword_result E data h with hk |
      ⟨lk, dk, edk1, sa, sb, _, hd, hen, _, he, hb⟩
    · exact hkeys hk
    · have hdl := decrypt_length E hO hd
      have hel := (encrypt_length E hL hen).1
      have hold : (sl s.encryptedDataKey).length ≤ 255 := by
        cases hse : s.encryptedDataKey with
        | none => simp [sl]
        | some e => simpa [sl] using hS.1 e hse
      refine ⟨fun e1 he1 => ?_, fun b1 hb1 => ?_⟩
      · rw [he] at he1
        simp only [Option.some.injEq] at he1
        subst he1
        omega
      · rcases hb with ⟨_, hb⟩ | ⟨b, dkb, bdk1, sc, sd, hsb, hdb, henb, hb⟩
        · rw [hb] at hb1; simp at hb1
        · rw [hb] at hb1
          simp only [Option.some.injEq] at hb1
          subst hb1
          have h1 := decrypt_length E hO hdb
          have h2 := (encrypt_length E hL henb).1
          have h3 := hS.2 b hsb
          omega
  · rcases cmdRotateDataKey_result E h with hk | ⟨key, sa, sb, hc, _, hb, he⟩
    · exact hkeys hk
    · refine ⟨fun e1 he1 => ?_, fun b1 hb1 => ?_⟩
      · rw [he] at he1
        simp only [Option.some.injEq] at he1
        subst he1
        have := createDataKey_length E hL hc
        omega
      · rw [hb] at hb1
        exact hS.1 b1 hb1
  · obtain ⟨_, he, hb⟩ := cmdClearBackupKey_result data h
    refine ⟨fun e1 he1 => hS.1 e1 (he ▸ he1), fun b1 hb1 => ?_⟩
    rcases hb with hb | hb
    · exact hS.2 b1 (hb ▸ hb1)
    · rw [hb] at hb1; simp at hb1
  · exact hkeys (cmdGetState_keys E h)
  · simp at h

theorem reachable_keyLen (E : Primitives) (hL : SealLength E) (hO : OpenLength E)
    {s : encryptionService} (h : Reachable E s) : KeyLen s := by
  induction h with
  | start input =>
    exact ⟨fun e he => by simp [startup] at he, fun b hb => by simp [startup] at hb⟩
  | step command data _ hd ih => exact dispatch_keyLen E hL hO command data ih hd

/-- C20: in every state reachable from the startup state by any sequence of commands,
encryptedDataKey and backupDataKey each have at most 255 bytes, so the length byte that
`encodeKey` writes for them, in any reply, is the true length of the key and never wraps
modulo 256. Under the laws that the GCM output is 16 bytes longer than the plaintext and
that what GCM opens is 16 bytes shorter than its input. -/
theorem stored_keys_fit_length_byte (E : Primitives) (hL : SealLength E) (hO : OpenLength E)
    (s : encryptionService) (h : Reachable E s) :
    (∀ e, s.encryptedDataKey = some e →
      e.length ≤ 255 ∧ encodeKey (some e) = e.length :: e) ∧
    (∀ b, s.backupDataKey = some b →
      b.length ≤ 255 ∧ encodeKey (some b) = b.length :: b) := by
  have hk := reachable_keyLen E hL hO h
  refine ⟨fun e he => ⟨hk.1 e he, ?_⟩, fun b hb => ⟨hk.2 b hb, ?_⟩⟩
  · have := hk.1 e he
    simp [encodeKey, Nat.mod_eq_of_lt (show e.length < 256 by omega)]
  · have := hk.2 b hb
    simp [encodeKey, Nat.mod_eq_of_lt (show b.length < 256 by omega)]

theorem stored_keys_fit_length_byte_witness :
    SealLength (tagged 16) ∧ OpenLength (tagged 16) ∧
    Reachable (tagged 16) (stateAfter (tagged 16) [(8, []), (8, [])]) ∧
    (∀ e, (stateAfter (tagged 16) [(8, []), (8, [])]).encryptedDataKey = some e →
      e.length ≤ 255 ∧ encodeKey (some e) = e.length :: e) ∧
    (∀ b, (stateAfter (tagged 16) [(8, []), (8, [])]).backupDataKey = some b →
      b.length ≤ 255 ∧ encodeKey (some b) = b.length :: b) :=
  ⟨tagged_sealLength, tagged_openLength,
    Reachable.step 8 [] (Reachable.step 8 [] (Reachable.start []) rfl) rfl,
    stored_keys_fit_length_byte (tagged 16) tagged_sealLength tagged_openLength
      (stateAfter (tagged 16) [(8, []), (8, [])])
      (Reachable.step 8 [] (Reachable.step 8 [] (Reachable.start []) rfl) rfl)⟩

/-! ## Which commands get a reply -/

theorem decrypt_panic_key (E : Primitives) {key data : Bytes} {msg : String}
    (h : decrypt E key data = .panic msg) :
    aesNewCipher key = some msg ∧ ∃ rest, data = 0 :: rest := by
  unfold decrypt at h
  split at h
  · simp at h
  · rename_i version rest
    split at h
    · simp at h
    · rename_i hv
      have hv0 : version = 0 := by simpa using hv
      subst hv0
      unfold aesgcmDecrypt at h
      split at h
      · rename_i m hm
        simp only [Dec.panic.injEq] at h
        subst h
        exact ⟨hm, rest, rfl⟩
      · split at h
        · simp at h
        · split at h <;> simp at h

theorem decrypt_bad_key (E : Primitives) {key : Bytes} {msg : String} (rest : Bytes)
    (h : aesNewCipher key = some msg) : decrypt E key (0 :: rest) = .panic msg := by
  simp [decrypt, aesgcmDecrypt, h]

theorem decrypt_none (E : Primitives) (key : Bytes) :
    decrypt E key (sl none) = .err "ciphertext is too short" := rfl

theorem decryptWithKey_panic (E : Primitives) {s : encryptionService} {key : Option Bytes}
    {data : Bytes} {msg : String} (hk : aesNewCipher (sl s.lockKey) = none)
    (h : decryptWithKey E s key data = .panic msg) :
    BadKey E (sl s.lockKey) key ∧ ∃ rest, data = 0 :: rest := by
  unfold decryptWithKey at h
  split at h
  · simp at h
  · rename_i k
    cases hd : decrypt E (sl s.lockKey) k with
    | panic m => rw [(decrypt_panic_key E hd).1] at hk; simp at hk
    | err m => rw [hd] at h; simp at h
    | ret dk =>
      rw [hd] at h
      simp only [] at h
      obtain ⟨h1, h2⟩ := decrypt_panic_key E h
      exact ⟨⟨k, dk, rfl, hd, by rw [h1]; simp⟩, h2⟩

theorem decryptWithKey_ret (E : Primitives) {s : encryptionService} {key : Option Bytes}
    {data plaintext : Bytes} (h : decryptWithKey E s key data = .ret plaintext) :
    Opens E (sl s.lockKey) key data := by
  unfold decryptWithKey at h
  split at h
  · simp at h
  · rename_i k
    cases hd : decrypt E (sl s.lockKey) k with
    | panic m => rw [hd] at h; simp at h
    | err m => rw [hd] at h; simp at h
    | ret dk =>
      rw [hd] at h
      exact ⟨k, dk, plaintext, rfl, hd, h⟩

theorem decryptWithKey_opens (E : Primitives) {s : encryptionService} {key : Option Bytes}
    {data : Bytes} (h : Opens E (sl s.lockKey) key data) :
    ∃ plaintext, decryptWithKey E s key data = .ret plaintext := by
  obtain ⟨k, dk, p, hk, hd, hp⟩ := h
  subst hk
  exact ⟨p, by simp [decryptWithKey, hd, hp]⟩

theorem decryptWithKey_bad (E : Primitives) {s : encryptionService} {key : Option Bytes}
    (rest : Bytes) (h : BadKey E (sl s.lockKey) key) :
    ∃ msg, decryptWithKey E s key (0 :: rest) = .panic msg := by
  obtain ⟨k, dk, hk, hd, hbad⟩ := h
  subst hk
  cases hc : aesNewCipher dk with
  | none => exact absurd hc hbad
  | some msg => exact ⟨msg, by simp [decryptWithKey, hd, decrypt_bad_key E rest hc]⟩

theorem cmdSetDataKey_panic (E : Primitives) (data : Bytes) {s s1 : encryptionService}
    {lk : Bytes} {msg : String} (hlk : s.lockKey = some lk) (hk : aesNewCipher lk = none)
    (h : cmdSetDataKey E data s = .panic msg s1) :
    ¬ ∃ e rest b rest2, readField data = some (e, rest) ∧ readField rest = some (b, rest2) := by
  rintro ⟨e, rest, b, rest2, h1, h2⟩
  unfold cmdSetDataKey at h
  rw [hlk] at h
  simp only [h1, h2] at h
  cases hd : decrypt E lk e with
  | panic m => rw [(decrypt_panic_key E hd).1] at hk; simp at hk
  | err m => rw [hd] at h; simp at h
  | ret dk =>
    rw [hd] at h
    simp only [] at h
    split at h
    · simp at h
    · cases hdb : decrypt E lk b with
      | panic m => rw [(decrypt_panic_key E hdb).1] at hk; simp at hk
      | err m => rw [hdb] at h; simp at h
      | ret dkb => rw [hdb] at h; simp at h

theorem cmdEncrypt_panic (E : Primitives) (data : Bytes) {s s1 : encryptionService}
    {lk : Bytes} {msg : String} (hlk : s.lockKey = some lk) (hk : aesNewCipher lk = none)
    (h : cmdEncrypt E data s = .panic msg s1) : BadKey E lk s.encryptedDataKey := by
  unfold cmdEncrypt at h
  rw [hlk] at h
  simp only [] at h
  cases he : s.encryptedDataKey with
  | none => rw [he, decrypt_none] at h; simp at h
  | some e =>
    rw [he] at h
    simp only [sl, Option.getD_some] at h
    cases hd : decrypt E lk e with
    | panic m => rw [(decrypt_panic_key E hd).1] at hk; simp at hk
    | err m => rw [hd] at h; simp at h
    | ret dk =>
      rw [hd] at h
      simp only [] at h
      refine ⟨e, dk, rfl, hd, fun hc => ?_⟩
      rw [encrypt_ok E data s hc] at h
      simp at h

theorem cmdDecrypt_panic (E : Primitives) (data : Bytes) {s s1 : encryptionService}
    {lk : Bytes} {msg : String} (hlk : s.lockKey = some lk) (hk : aesNewCipher lk = none)
    (h : cmdDecrypt E data s = .panic msg s1) :
    (∃ rest, data = 0 :: rest) ∧
      (BadKey E lk s.encryptedDataKey ∨
        (¬ Opens E lk s.encryptedDataKey data ∧ BadKey E lk s.backupDataKey)) := by
  have hsl : sl s.lockKey = lk := by rw [hlk]; rfl
  have hk1 : aesNewCipher (sl s.lockKey) = none := by rw [hsl]; exact hk
  unfold cmdDecrypt at h
  rw [hlk] at h
  simp only [] at h
  cases h1 : decryptWithKey E s s.encryptedDataKey data with
  | panic m =>
    have := decryptWithKey_panic E hk1 h1
    rw [hsl] at this
    exact ⟨this.2, Or.inl this.1⟩
  | ret p => rw [h1] at h; simp at h
  | err m =>
    rw [h1] at h
    simp only [] at h
    cases h2 : decryptWithKey E s s.backupDataKey data with
    | panic m2 =>
      have := decryptWithKey_panic E hk1 h2
      rw [hsl] at this
      refine ⟨this.2, Or.inr ⟨fun ho => ?_, this.1⟩⟩
      rw [← hsl] at ho
      obtain ⟨p, hp⟩ := decryptWithKey_opens E ho
      rw [hp] at h1
      simp at h1
    | ret p => rw [h2] at h; simp at h
    | err m2 => rw [h2] at h; simp at h

theorem cmdChangePassword_no_panic (E : Primitives) (data : Bytes) {s : encryptionService}
    {lk : Bytes} (hlk : s.lockKey = some lk) (hk : aesNewCipher lk = none)
    (hnew : aesNewCipher (generateLockKey E data) = none) (msg : String)
    (s1 : encryptionService) : cmdChangePassword E data s ≠ .panic msg s1 := by
  intro h
  rcases cmdChangePassword_handled E data s with ⟨m, s2, h2, _⟩ | ⟨m, h2⟩ | ⟨b, s2, h2, _⟩
  · clear h
    unfold cmdChangePassword at h2
    rw [hlk] at h2
    simp only [] at h2
    cases hb : s.backupDataKey with
    | none =>
      rw [hb] at h2
      simp only [] at h2
      cases hd : decrypt E lk (sl s.encryptedDataKey) with
      | panic m1 => rw [(decrypt_panic_key E hd).1] at hk; simp at hk
      | err m1 => rw [hd] at h2; simp at h2
      | ret dk =>
        rw [hd] at h2
        simp only [sl, Option.getD_some, encrypt_ok E _ _ hnew] at h2
        simp at h2
    | some b =>
      rw [hb] at h2
      simp only [] at h2
      cases hdb : decrypt E lk b with
      | panic m1 => rw [(decrypt_panic_key E hdb).1] at hk; simp at hk
      | err m1 => rw [hdb] at h2; simp at h2
      | ret dkb =>
        rw [hdb] at h2
        simp only [] at h2
        cases hd : decrypt E lk (sl s.encryptedDataKey) with
        | panic m1 => rw [(decrypt_panic_key E hd).1] at hk; simp at hk
        | err m1 => rw [hd] at h2; simp at h2
        | ret dk =>
          rw [hd] at h2
          simp only [sl, Option.getD_some, encrypt_ok E _ _ hnew] at h2
          simp at h2
  · rw [h2] at h; simp at h
  · rw [h2] at h; simp at h

/-- In a state whose lock key `aes.NewCipher` takes, a command 1..10 that panics is one of
the three cases of `Unanswered`. -/
theorem dispatch_panic_unanswered (E : Primitives) (hK : KdfLength E) (command : Nat)
    (data : Bytes) {s s1 : encryptionService} {lk : Bytes} {msg : String}
    (hlk : s.lockKey = some lk) (hk : aesNewCipher lk = none)
    (h : dispatch E command data s = .panic msg s1) (hc : 1 ≤ command ∧ command ≤ 10) :
    Unanswered E command data s := by
  have hsl : sl s.lockKey = lk := by rw [hlk]; rfl
  obtain ⟨hc1, hc2⟩ := hc
  interval_cases command
  · simp [dispatch, cmdSetPassword] at h
  · change cmdCreateDataKey E s = _ at h
    rw [cmdCreateDataKey_ok E s hlk hk] at h; simp at h
  · change cmdSetDataKey E data s = _ at h
    exact Or.inl ⟨rfl, cmdSetDataKey_panic E data hlk hk h⟩
  · simp [dispatch, cmdGetDataKey] at h
  · change cmdEncrypt E data s = _ at h
    exact Or.inr (Or.inl ⟨rfl, by rw [hsl]; exact cmdEncrypt_panic E data hlk hk h⟩)
  · change cmdDecrypt E data s = _ at h
    have := cmdDecrypt_panic E data hlk hk h
    exact Or.inr (Or.inr ⟨rfl, this.1, by rw [hsl]; exact this.2⟩)
  · change cmdChangePassword E data s = _ at h
    exact absurd h (cmdChangePassword_no_panic E data hlk hk
      (aesNewCipher_32 (generateLockKey_length E hK data)) msg s1)
  · change cmdRotateDataKey E s = _ at h
    cases hb : s.backupDataKey with
    | none => rw [cmdRotateDataKey_ok E s hlk hk hb] at h; simp at h
    | some b => rw [cmdRotateDataKey_in_progress E s hlk hb] at h; simp at h
  · change cmdClearBackupKey data s = _ at h
    unfold cmdClearBackupKey at h
    split at h
    · simp at h
    · split at h <;> simp at h
  · change cmdGetState E s = _ at h
    unfold cmdGetState at h
    split at h <;> simp at h

/-- Each case of `Unanswered` does abort: in a state whose lock key `aes.NewCipher` takes,
the command panics and the state, standard output included, is as before. -/
theorem unanswered_panics (E : Primitives) (command : Nat) (data : Bytes)
    {s : encryptionService} {lk : Bytes} (hlk : s.lockKey = some lk)
    (h : Unanswered E command data s) : ∃ msg, dispatch E command data s = .panic msg s := by
  have hsl : sl s.lockKey = lk := by rw [hlk]; rfl
  rcases h with ⟨hc, h3⟩ | ⟨hc, h5⟩ | ⟨hc, ⟨rest, hdata⟩, h6⟩
  · subst hc
    change ∃ msg, cmdSetDataKey E data s = .panic msg s
    unfold cmdSetDataKey
    rw [hlk]
    simp only []
    cases hr1 : readField data with
    | none => exact ⟨_, rfl⟩
    | some p1 =>
      obtain ⟨e, data1⟩ := p1
      simp only []
      cases hr2 : readField data1 with
      | none => exact ⟨_, rfl⟩
      | some p2 =>
        obtain ⟨b, rest2⟩ := p2
        exact absurd ⟨e, data1, b, rest2, hr1, hr2⟩ h3
  · subst hc
    change ∃ msg, cmdEncrypt E data s = .panic msg s
    rw [hsl] at h5
    obtain ⟨k, dk, hk, hd, hbad⟩ := h5
    cases hc : aesNewCipher dk with
    | none => exact absurd hc hbad
    | some msg =>
      exact ⟨msg, by simp [cmdEncrypt, hlk, hk, sl, hd, encrypt, aesgcmEncrypt, hc]⟩
  · subst hc
    subst hdata
    change ∃ msg, cmdDecrypt E (0 :: rest) s = .panic msg s
    unfold cmdDecrypt
    rw [hlk]
    simp only []
    rcases h6 with hbad | ⟨hno, hbad⟩
    · obtain ⟨m, hm⟩ := decryptWithKey_bad E rest hbad
      rw [hm]
      exact ⟨m, rfl⟩
    · cases h1 : decryptWithKey E s s.encryptedDataKey (0 :: rest) with
      | panic m => exact ⟨m, rfl⟩
      | ret p => exact absurd (decryptWithKey_ret E h1) hno
      | err m =>
        simp only []
        obtain ⟨m2, hm2⟩ := decryptWithKey_bad E rest hbad
        rw [hm2]
        exact ⟨m2, rfl⟩

/-- SetPassword, GetDataKey, ClearBackupKey and GetState reply in every state. -/
theorem replies_in_every_state (E : Primitives) (command : Nat) (data : Bytes)
    (s : encryptionService)
    (hc : command = 1 ∨ command = 4 ∨ command = 9 ∨ command = 10) :
    ∃ s1 body, dispatch E command data s = .ok () s1 ∧ s1.stdout = s.stdout ++ frame body ∧
      (body.head? = some 83 ∨ body.head? = some 69) := by
  rcases dispatch_handled E command data s with ⟨m, s2, h2, _⟩ | ⟨m, h2⟩ | ⟨b, s2, h2, ho⟩
  · exfalso
    rcases hc with hc | hc | hc | hc <;> subst hc
    · simp [dispatch, cmdSetPassword] at h2
    · simp [dispatch, cmdGetDataKey] at h2
    · change cmdClearBackupKey data s = _ at h2
      unfold cmdClearBackupKey at h2
      split at h2
      · simp at h2
      · split at h2 <;> simp at h2
    · change cmdGetState E s = _ at h2
      unfold cmdGetState at h2
      split at h2 <;> simp at h2
  · exact ⟨_, 69 :: str m, h2, by rw [replyError_eq], Or.inr rfl⟩
  · exact ⟨_, 83 :: b, h2, ho, Or.inl rfl⟩

/-- In a state whose lock key `aes.NewCipher` takes, every command 1..10 outside the three
cases of `Unanswered` writes exactly one reply frame. -/
theorem reply_unless_unanswered (E : Primitives) (hK : KdfLength E) (command : Nat)
    (data : Bytes) {s : encryptionService} {lk : Bytes}
    (hlk : s.lockKey = some lk) (hk : aesNewCipher lk = none)
    (hc : 1 ≤ command ∧ command ≤ 10) (hu : ¬ Unanswered E command data s) :
    ∃ s1 body, dispatch E command data s = .ok () s1 ∧ s1.stdout = s.stdout ++ frame body ∧
      (body.head? = some 83 ∨ body.head? = some 69) := by
  rcases dispatch_handled E command data s with ⟨m, s2, h2, _⟩ | ⟨m, h2⟩ | ⟨b, s2, h2, ho⟩
  · exact absurd (dispatch_panic_unanswered E hK command data hlk hk h2 hc) hu
  · exact ⟨_, 69 :: str m, h2, by rw [replyError_eq], Or.inr rfl⟩
  · exact ⟨_, 83 :: b, h2, ho, Or.inl rfl⟩

/-- C6, as amended: for every state reachable from startup, every command byte in 1..10
and every payload, handling the command writes exactly one reply frame, whose body begins
with 'S' or 'E', outside three cases: SetDataKey with a payload from which `readField`
cannot take two key fields; Encrypt while encryptedDataKey opens under lockKey to a data
key that is not 16, 24 or 32 bytes long; Decrypt of a text with first byte 0x00 while the
key that is tried opens to such a data key (encryptedDataKey, or backupDataKey when
encryptedDataKey does not decrypt the text). In every case the command writes at most one
reply, and it ends without a reply only in a panic with nothing written. Under the law
that the derived key has the requested length. -/
theorem one_reply_unless_unanswered (E : Primitives) (hK : KdfLength E)
    (s : encryptionService) (hs : Reachable E s) (command : Nat) (data : Bytes)
    (hc : 1 ≤ command ∧ command ≤ 10) :
    (¬ Unanswered E command data s →
      ∃ s1 body, dispatch E command data s = .ok () s1 ∧
        s1.stdout = s.stdout ++ frame body ∧
        (body.head? = some 83 ∨ body.head? = some 69)) ∧
    ((∃ s1 body, dispatch E command data s = .ok () s1 ∧
        s1.stdout = s.stdout ++ frame body ∧
        (body.head? = some 83 ∨ body.head? = some 69)) ∨
      (∃ msg s1, dispatch E command data s = .panic msg s1 ∧ s1.stdout = s.stdout)) := by
  obtain ⟨p, hp⟩ := reachable_lockKey E hs
  have hk := aesNewCipher_32 (generateLockKey_length E hK p)
  refine ⟨reply_unless_unanswered E hK command data hp hk hc, ?_⟩
  rcases dispatch_handled E command data s with ⟨m, s2, h2, ho⟩ | ⟨m, h2⟩ | ⟨b, s2, h2, ho⟩
  · exact Or.inr ⟨m, s2, h2, ho⟩
  · exact Or.inl ⟨_, 69 :: str m, h2, by rw [replyError_eq], Or.inr rfl⟩
  · exact Or.inl ⟨_, 83 :: b, h2, ho, Or.inl rfl⟩

theorem one_reply_unless_unanswered_witness :
    KdfLength (tagged 16) ∧
    Reachable (tagged 16) (stateAfter (tagged 16) [(8, [])]) ∧
    ¬ Unanswered (tagged 16) 5 (str "hello") (stateAfter (tagged 16) [(8, [])]) ∧
    ∃ s1 body, dispatch (tagged 16) 5 (str "hello") (stateAfter (tagged 16) [(8, [])]) =
        .ok () s1 ∧
      s1.stdout = (stateAfter (tagged 16) [(8, [])]).stdout ++ frame body ∧
      (body.head? = some 83 ∨ body.head? = some 69) := by
  have hu : ¬ Unanswered (tagged 16) 5 (str "hello") (stateAfter (tagged 16) [(8, [])]) := by
    rintro (⟨h, _⟩ | ⟨_, k, dk, h1, h2, h3⟩ | ⟨h, _⟩)
    · exact absurd h (by decide)
    · have h1a : some (freshKey (tagged 16) (generateLockKey (tagged 16) []) 0) = some k := h1
      simp only [Option.some.injEq] at h1a
      subst h1a
      have h2a : Dec.ret (randBytes (tagged 16) 0 32) = Dec.ret dk := h2
      simp only [Dec.ret.injEq] at h2a
      subst h2a
      exact h3 rfl
    · exact absurd h (by decide)
  exact ⟨tagged_kdfLength 16, Reachable.step 8 [] (Reachable.start []) rfl, hu,
    (one_reply_unless_unanswered (tagged 16) (tagged_kdfLength 16)
      (stateAfter (tagged 16) [(8, [])]) (Reachable.step 8 [] (Reachable.start []) rfl)
      5 (str "hello") (by decide)).1 hu⟩

/-! ## The stored data key opens under the lock key to 32 bytes -/

theorem sealed_of_fields (E : Primitives) {s s1 : encryptionService}
    (h1 : s1.lockKey = s.lockKey) (h2 : s1.encryptedDataKey = s.encryptedDataKey)
    (h : Sealed E s) : Sealed E s1 := by
  unfold Sealed
  rw [h1, h2]
  exact h

theorem sealed_of_keys (E : Primitives) {s s1 : encryptionService}
    (hk : keys s1 = keys s) (h : Sealed E s) : Sealed E s1 :=
  sealed_of_fields E (lockKey_of_keys hk).1 (lockKey_of_keys hk).2.1 h

theorem sealed_startup (E : Primitives) (hK : KdfLength E) (input : Bytes) :
    Sealed E (startup E input) :=
  ⟨_, rfl, generateLockKey_length E hK _, fun e he => by simp [startup] at he⟩

/-- What a SetDataKey that returns has done: either it replied with an error and changed
nothing else, or the first field of the payload opens under the lock key, is now the
stored data key, and the reply is 'S' alone. -/
theorem cmdSetDataKey_stored (E : Primitives) (data : Bytes) {s s1 : encryptionService}
    {lk : Bytes} (hlk : s.lockKey = some lk) (h : cmdSetDataKey E data s = .ok () s1) :
    (∃ msg, s1 = replyError msg s) ∨
    ∃ e rest dk, readField data = some (e, rest) ∧ decrypt E lk e = .ret dk ∧
      s1.lockKey = s.lockKey ∧ s1.encryptedDataKey = some e ∧
      s1.stdout = s.stdout ++ frame [83] := by
  unfold cmdSetDataKey at h
  rw [hlk] at h
  simp only [] at h
  cases hr1 : readField data with
  | none => rw [hr1] at h; simp at h
  | some p1 =>
    obtain ⟨e, data1⟩ := p1
    rw [hr1] at h
    simp only [] at h
    cases hr2 : readField data1 with
    | none => rw [hr2] at h; simp at h
    | some p2 =>
      obtain ⟨b, rest⟩ := p2
      rw [hr2] at h
      simp only [] at h
      cases hd : decrypt E lk e with
      | panic msg => rw [hd] at h; simp at h
      | err msg =>
        rw [hd] at h
        simp only [Res.ok.injEq, true_and] at h
        exact Or.inl ⟨msg, h.symm⟩
      | ret dk =>
        rw [hd] at h
        simp only [] at h
        split at h
        · simp only [Res.ok.injEq, true_and] at h
          subst h
          exact Or.inr ⟨e, data1, dk, rfl, hd, hlk.symm, rfl, rfl⟩
        · cases hdb : decrypt E lk b with
          | panic msg => rw [hdb] at h; simp at h
          | err msg =>
            rw [hdb] at h
            simp only [Res.ok.injEq, true_and] at h
            exact Or.inl ⟨msg, h.symm⟩
          | ret dkb =>
            rw [hdb] at h
            simp only [Res.ok.injEq, true_and] at h
            subst h
            exact Or.inr ⟨e, data1, dk, rfl, hd, hlk.symm, rfl, rfl⟩

theorem cmdSetDataKey_sealed (E : Primitives) {s s1 : encryptionService} (data : Bytes)
    (hS : Sealed E s)
    (hload : s1.stdout = s.stdout ++ frame [83] →
      ∀ lk e rest dk, s.lockKey = some lk → readField data = some (e, rest) →
        decrypt E lk e = .ret dk → dk.length = 32)
    (h : cmdSetDataKey E data s = .ok () s1) : Sealed E s1 := by
  obtain ⟨lk, hlk, hlen, hedk⟩ := hS
  rcases cmdSetDataKey_stored E data hlk h with ⟨msg, hs⟩ | ⟨e, rest, dk, hr, hdk, hl, he, ho⟩
  · subst hs
    exact ⟨lk, hlk, hlen, hedk⟩
  · refine ⟨lk, hl.trans hlk, hlen, fun e1 he1 => ?_⟩
    rw [he] at he1
    simp only [Option.some.injEq] at he1
    subst he1
    exact ⟨dk, hdk, hload ho lk e rest dk hlk hr hdk⟩

theorem cmdRotateDataKey_sealed (E : Primitives) (hE : OpenSeal E)
    {s s1 : encryptionService} (hS : Sealed E s)
    (h : cmdRotateDataKey E s = .ok () s1) : Sealed E s1 := by
  obtain ⟨lk, hlk, hlen, hedk⟩ := hS
  have hk := aesNewCipher_32 hlen
  cases hb : s.backupDataKey with
  | some b =>
    rw [cmdRotateDataKey_in_progress E s hlk hb] at h
    simp only [Res.ok.injEq, true_and] at h
    subst h
    exact ⟨lk, hlk, hlen, hedk⟩
  | none =>
    rw [cmdRotateDataKey_ok E s hlk hk hb] at h
    simp only [Res.ok.injEq, true_and] at h
    subst h
    refine ⟨lk, hlk, hlen, fun e he => ?_⟩
    have he1 : some (freshKey E lk s.randPos) = some e := he
    simp only [Option.some.injEq] at he1
    subst he1
    exact ⟨_, decrypt_freshKey E hE s.randPos hk, randBytes_length E _ _⟩

theorem cmdChangePassword_sealed (E : Primitives) (hK : KdfLength E) (hE : OpenSeal E)
    {s s1 : encryptionService} (data : Bytes) (hS : Sealed E s)
    (h : cmdChangePassword E data s = .ok () s1) : Sealed E s1 := by
  rcases cmdChangePassword_result E data h with
    hk | ⟨lk, dk, edk1, sa, sb, hlk, hdk, henc, hl1, he1, _⟩
  · exact sealed_of_keys E hk hS
  · obtain ⟨lk0, hlk0, _, hedk⟩ := hS
    have hknew : aesNewCipher (generateLockKey E data) = none :=
      aesNewCipher_32 (generateLockKey_length E hK data)
    rw [encrypt_ok E dk sa hknew] at henc
    simp only [Res.ok.injEq] at henc
    obtain ⟨henc1, _⟩ := henc
    have hlen : dk.length = 32 := by
      cases hedge : s.encryptedDataKey with
      | none =>
        rw [hedge] at hdk
        simp [sl, decrypt] at hdk
      | some e =>
        obtain ⟨dk0, hd0, hl0⟩ := hedk e hedge
        rw [hlk] at hlk0
        simp only [Option.some.injEq] at hlk0
        subst hlk0
        rw [hedge] at hdk
        simp only [sl, Option.getD_some] at hdk
        rw [hd0] at hdk
        simp only [Dec.ret.injEq] at hdk
        subst hdk
        exact hl0
    refine ⟨_, hl1, generateLockKey_length E hK data, fun e he => ?_⟩
    rw [he1] at he
    simp only [Option.some.injEq] at he
    subst he
    subst henc1
    exact ⟨dk, decrypt_envelope E hE dk hknew (randBytes_length E _ _), hlen⟩

theorem sealedRun_reachable (E : Primitives) {s : encryptionService}
    (h : SealedRun E s) : Reachable E s := by
  induction h with
  | start input => exact Reachable.start input
  | step command data _ _ _ hd ih => exact Reachable.step command data ih hd

theorem sealedRun_sealed (E : Primitives) (hK : KdfLength E) (hE : OpenSeal E)
    {s : encryptionService} (h : SealedRun E s) : Sealed E s := by
  induction h with
  | start input => exact sealed_startup E hK input
  | step command data _ hpw hload hd ih =>
    unfold dispatch at hd
    split at hd
    · obtain ⟨h1, h2, _⟩ := cmdSetPassword_result E data hd
      exact ⟨_, h1, generateLockKey_length E hK data, fun e he => hpw rfl e (h2 ▸ he)⟩
    · exact sealed_of_keys E (cmdCreateDataKey_keys E hd) ih
    · exact cmdSetDataKey_sealed E data ih (hload rfl) hd
    · exact sealed_of_keys E (cmdGetDataKey_keys hd) ih
    · exact sealed_of_keys E (cmdEncrypt_keys E data hd) ih
    · exact sealed_of_keys E (cmdDecrypt_keys E data hd) ih
    · exact cmdChangePassword_sealed E hK hE data ih hd
    · exact cmdRotateDataKey_sealed E hE ih hd
    · obtain ⟨h1, h2, _⟩ := cmdClearBackupKey_result data hd
      exact sealed_of_fields E h1 h2 ih
    · exact sealed_of_keys E (cmdGetState_keys E hd) ih
    · simp at hd

/-- The two conditions on the steps of a `SealedRun` exclude nothing else than the steps
that break the property: a SetPassword or SetDataKey step after which the stored data key
opens under the lock key to 32 bytes satisfies its condition, whatever state it started
in. -/
theorem sealedRun_conditions_needed (E : Primitives) (command : Nat) (data : Bytes)
    {s s1 : encryptionService} (h : dispatch E command data s = .ok () s1)
    (hS : ∀ e, s1.encryptedDataKey = some e →
      ∃ lk dk, s1.lockKey = some lk ∧ decrypt E lk e = .ret dk ∧ dk.length = 32) :
    (command = 1 → ∀ e, s.encryptedDataKey = some e →
      ∃ dk, decrypt E (generateLockKey E data) e = .ret dk ∧ dk.length = 32) ∧
    (command = 3 → s1.stdout = s.stdout ++ frame [83] →
      ∀ lk e rest dk, s.lockKey = some lk → readField data = some (e, rest) →
        decrypt E lk e = .ret dk → dk.length = 32) := by
  constructor
  · intro hc e he
    subst hc
    have h1 : cmdSetPassword E data s = .ok () s1 := h
    obtain ⟨hl, h2, _⟩ := cmdSetPassword_result E data h1
    obtain ⟨lk, dk, hlk, hd, hlen⟩ := hS e (h2.trans he)
    rw [hl] at hlk
    simp only [Option.some.injEq] at hlk
    subst hlk
    exact ⟨dk, hd, hlen⟩
  · intro hc ho lk e rest dk hlk hr hd
    subst hc
    have h1 : cmdSetDataKey E data s = .ok () s1 := h
    rcases cmdSetDataKey_stored E data hlk h1 with
      ⟨msg, hs⟩ | ⟨e1, rest1, dk1, hr1, hd1, hl1, he1, _⟩
    · subst hs
      rw [replyError_eq] at ho
      have hb := stdout_frame_inj ho
      simp at hb
    · rw [hr] at hr1
      simp only [Option.some.injEq, Prod.mk.injEq] at hr1
      obtain ⟨hr2, _⟩ := hr1
      subst hr2
      obtain ⟨lk2, dk2, hlk2, hd2, hl2⟩ := hS e he1
      rw [hl1, hlk] at hlk2
      simp only [Option.some.injEq] at hlk2
      subst hlk2
      rw [hd] at hd2
      simp only [Dec.ret.injEq] at hd2
      subst hd2
      exact hl2

/-- C4, as amended: in every state reached from the startup state by commands that do
not abort, in which every SetPassword issued while a data key is held derives a lock key
under which that data key opens to 32 bytes, and every SetDataKey that replies 'S' loads
as its first key one that opens under lockKey to 32 bytes: if encryptedDataKey is present
then decrypt(lockKey, encryptedDataKey) succeeds and its result is exactly 32 bytes long.
Under the laws that the derived key has the requested length and that opening undoes
sealing. -/
theorem stored_key_opens (E : Primitives) (hK : KdfLength E) (hE : OpenSeal E)
    (s : encryptionService) (e : Bytes)
    (hrun : SealedRun E s) (he : s.encryptedDataKey = some e) :
    ∃ lk dk, s.lockKey = some lk ∧ decrypt E lk e = .ret dk ∧ dk.length = 32 := by
  obtain ⟨lk, hlk, _, hedk⟩ := sealedRun_sealed E hK hE hrun
  obtain ⟨dk, hd, hlen⟩ := hedk e he
  exact ⟨lk, dk, hlk, hd, hlen⟩

theorem stored_key_opens_witness :
    KdfLength (tagged 16) ∧ OpenSeal (tagged 16) ∧
    SealedRun (tagged 16) (stateAfter (tagged 16) [(1, str "hunter2"),
      (3, combineDataKeys (some (envelope (tagged 16)
        (generateLockKey (tagged 16) (str "hunter2")) (List.replicate 12 0)
        (List.replicate 32 7))) none)]) ∧
    (stateAfter (tagged 16) [(1, str "hunter2"),
      (3, combineDataKeys (some (envelope (tagged 16)
        (generateLockKey (tagged 16) (str "hunter2")) (List.replicate 12 0)
        (List.replicate 32 7))) none)]).encryptedDataKey =
      some (envelope (tagged 16) (generateLockKey (tagged 16) (str "hunter2"))
        (List.replicate 12 0) (List.replicate 32 7)) ∧
    ∃ lk dk, (stateAfter (tagged 16) [(1, str "hunter2"),
        (3, combineDataKeys (some (envelope (tagged 16)
          (generateLockKey (tagged 16) (str "hunter2")) (List.replicate 12 0)
          (List.replicate 32 7))) none)]).lockKey = some lk ∧
      decrypt (tagged 16) lk (envelope (tagged 16)
        (generateLockKey (tagged 16) (str "hunter2")) (List.replicate 12 0)
        (List.replicate 32 7)) = .ret dk ∧
      dk.length = 32 := by
  have h1 : SealedRun (tagged 16) (stateAfter (tagged 16) [(1, str "hunter2")]) :=
    SealedRun.step 1 (str "hunter2") (SealedRun.start [])
      (fun _ e he => by simp [startup] at he) (fun hc => absurd hc (by decide)) rfl
  have h2 : SealedRun (tagged 16) (stateAfter (tagged 16) [(1, str "hunter2"),
      (3, combineDataKeys (some (envelope (tagged 16)
        (generateLockKey (tagged 16) (str "hunter2")) (List.replicate 12 0)
        (List.replicate 32 7))) none)]) := by
    refine SealedRun.step 3 (combineDataKeys (some (envelope (tagged 16)
        (generateLockKey (tagged 16) (str "hunter2")) (List.replicate 12 0)
        (List.replicate 32 7))) none) h1 (fun hc => absurd hc (by decide)) ?_ rfl
    intro _ _ lk e rest dk hlk hr hd
    have hlk1 : some (generateLockKey (tagged 16) (str "hunter2")) = some lk := hlk
    simp only [Option.some.injEq] at hlk1
    subst hlk1
    have hr1 : some (envelope (tagged 16) (generateLockKey (tagged 16) (str "hunter2"))
        (List.replicate 12 0) (List.replicate 32 7), [0]) = some (e, rest) := hr
    simp only [Option.some.injEq, Prod.mk.injEq] at hr1
    obtain ⟨hr2, _⟩ := hr1
    subst hr2
    have hd1 : Dec.ret (List.replicate 32 7) = Dec.ret dk := hd
    simp only [Dec.ret.injEq] at hd1
    subst hd1
    rfl
  exact ⟨tagged_kdfLength 16, tagged_openSeal 16, h2, rfl,
    stored_key_opens (tagged 16) (tagged_kdfLength 16) (tagged_openSeal 16) _ _ h2 rfl⟩

end Gosecrets
